import Mathlib

/-!
Shallow embedding of the reference-extraction engine of
`scripts/verify_citations.py` (sti-survey repository), together with
theorems settling the specification claims about the Text Normalizer,
Reference Block Locator, Reference Segmenter, Multi-Signal Counter,
Reference Parser, Catalog Reconciler, Extraction Orchestrator cache and
the Comparator/Reporter.

Python regular expressions are hand-translated into executable scanners
over `List Char`, reproducing the `re` module's leftmost-match,
alternation-order and greedy/lazy backtracking semantics for the
specific patterns that occur in the source.  Character classes are
modelled over the ASCII range plus the explicit Latin-1 ranges that
appear literally in the source patterns (the repository's text inputs
are ASCII/Latin-1).  Python floats are modelled as exact rationals; the
float products `0.7*n`, `1.1*n`, `0.8*n` agree with the exact rational
value except possibly at one-ulp rounding ties, which no theorem below
depends on.  File-system and network collaborators (`os.listdir`,
`os.path.abspath`, PDF extraction backends, `difflib`, Crossref) are
universally-quantified parameters.
-/

namespace STISurvey

/-! ### Character classes (ASCII fragments of the `re` classes) -/

/-- `\d` — ASCII decimal digit. -/
def isDigitC (c : Char) : Bool := '0' ≤ c && c ≤ '9'

/-- `[A-Z]`. -/
def isUpperC (c : Char) : Bool := 'A' ≤ c && c ≤ 'Z'

/-- `[a-z]`. -/
def isLowerC (c : Char) : Bool := 'a' ≤ c && c ≤ 'z'

/-- `[A-Za-z]`. -/
def isAlphaC (c : Char) : Bool := isUpperC c || isLowerC c

/-- `\w` — word character (ASCII fragment): letter, digit or underscore. -/
def isWordC (c : Char) : Bool := isAlphaC c || isDigitC c || c = '_'

/-- `\s` — whitespace: space, tab, newline, carriage return, vertical tab,
form feed (the ASCII whitespace recognised by Python's `\s` and `strip`). -/
def isWsC (c : Char) : Bool :=
  c = ' ' || c = '\t' || c = '\n' || c = '\r' || c = '\x0b' || c = '\x0c'

/-- The accented-letter ranges `À-Ö`, `Ø-ö`, `ø-ÿ` used in the author-name
character class `[A-Za-zÀ-ÖØ-öø-ÿ'’-]`. -/
def isLatinExtC (c : Char) : Bool :=
  ('À' ≤ c && c ≤ 'Ö') || ('Ø' ≤ c && c ≤ 'ö') ||
    ('ø' ≤ c && c ≤ 'ÿ')

/-- Member of `[A-Za-zÀ-ÖØ-öø-ÿ'’-]` (author word characters). -/
def isNameC (c : Char) : Bool :=
  isAlphaC c || isLatinExtC c || c = '\'' || c = '’' || c = '-'

/-- Member of `[A-Za-z\-']` (the narrower surname class of `author_line`). -/
def isSurnameC (c : Char) : Bool := isAlphaC c || c = '-' || c = '\''

/-- ASCII lower-casing, for the `re.IGNORECASE` comparisons and `str.lower`. -/
def lowerC (c : Char) : Char :=
  if isUpperC c then Char.ofNat (c.toNat + 32) else c

/-! ### Small string utilities mirroring Python `str` methods -/

/-- Length of the leading whitespace run (`\s*`). -/
def countWs (l : List Char) : Nat := (l.takeWhile isWsC).length

/-- Length of the leading digit run. -/
def countDigits (l : List Char) : Nat := (l.takeWhile isDigitC).length

/-- Python `str.strip()`: drop leading and trailing whitespace. -/
def stripChars (l : List Char) : List Char :=
  ((l.dropWhile isWsC).reverse.dropWhile isWsC).reverse

/-- Python `str.rstrip()`. -/
def rstripChars (l : List Char) : List Char :=
  (l.reverse.dropWhile isWsC).reverse

/-- Python `str.splitlines()` on `\n`-normalised text: each `\n` terminates a
line; a trailing incomplete line is kept, a trailing `\n` adds no line. -/
def splitLinesChars (l : List Char) : List (List Char) :=
  go l []
where
  go : List Char → List Char → List (List Char)
    | [], acc => match acc with
      | [] => []
      | _ => [acc.reverse]
    | '\n' :: rest, acc => acc.reverse :: go rest []
    | c :: rest, acc => go rest (c :: acc)

/-- Case-insensitive literal-prefix test (`re.IGNORECASE` literals). -/
def ciStarts : List Char → List Char → Bool
  | [], _ => true
  | _ :: _, [] => false
  | p :: ps, c :: cs => (lowerC p = lowerC c) && ciStarts ps cs

/-- Interpret 1–3 scanned digit characters as a number (`int(...)`). -/
def digitsToNat (l : List Char) : Nat :=
  l.foldl (fun a c => a * 10 + (c.toNat - '0'.toNat)) 0

/-! ### Text Normalizer — `_normalize_text` (verify_citations.py:205-215) -/

/-- `re.sub(r"\r\n?|­", "\n", text)`: a CR optionally followed by LF,
or a soft hyphen, becomes one newline (leftmost, `\r\n` preferred). -/
def subCrSoftHyphen : List Char → List Char
  | [] => []
  | '\r' :: '\n' :: rest => '\n' :: subCrSoftHyphen rest
  | '\r' :: rest => '\n' :: subCrSoftHyphen rest
  | '­' :: rest => '\n' :: subCrSoftHyphen rest
  | c :: rest => c :: subCrSoftHyphen rest

/-- `re.sub(r" ", " ", text)`: non-breaking spaces become spaces. -/
def subNbsp (l : List Char) : List Char :=
  l.map fun c => if c = ' ' then ' ' else c

/-- `re.sub(r"(\w)-\n(\w)", r"\1\2", text)`: heal hyphenation across line
breaks; scanning resumes after each replacement, as `re.sub` does. -/
def healHyphens (l : List Char) : List Char := go l.length l
where
  go : Nat → List Char → List Char
    | 0, l => l
    | fuel + 1, a :: '-' :: '\n' :: b :: rest =>
        if isWordC a && isWordC b then a :: b :: go fuel rest
        else a :: go fuel ('-' :: '\n' :: b :: rest)
    | fuel + 1, a :: rest => a :: go fuel rest
    | _ + 1, [] => []

/-- `re.sub(r"[ \t]+", " ", text)`: collapse horizontal whitespace runs. -/
def collapseSpaces (l : List Char) : List Char := go l.length l
where
  go : Nat → List Char → List Char
    | 0, l => l
    | _ + 1, [] => []
    | fuel + 1, c :: rest =>
        if c = ' ' || c = '\t' then
          ' ' :: go fuel (rest.dropWhile fun d => d = ' ' || d = '\t')
        else c :: go fuel rest

/-- `re.sub(r"\n\s+\n", "\n\n", text)`: the greedy `\s+` makes each match
run from a `\n` through the last `\n` of the following whitespace run. -/
def collapseBlank (l : List Char) : List Char := go l.length l
where
  go : Nat → List Char → List Char
    | 0, l => l
    | _ + 1, [] => []
    | fuel + 1, '\n' :: rest =>
        let run := rest.takeWhile isWsC
        if run.contains '\n' then
          let afterRun := rest.dropWhile isWsC
          let keep := (run.reverse.takeWhile fun c => c ≠ '\n').reverse
          '\n' :: '\n' :: go fuel (keep ++ afterRun)
        else '\n' :: go fuel rest
    | fuel + 1, c :: rest => c :: go fuel rest

/-- `_normalize_text` (lines 205-215). -/
def normalize_text (s : String) : String :=
  String.mk (collapseBlank (collapseSpaces (healHyphens (subNbsp
    (subCrSoftHyphen s.data)))))

/-! ### `_insert_segment_newlines` (verify_citations.py:218-223)

Each of the three `re.sub` passes scans the original string of that pass
left to right; at a position whose preceding character is not `\n`
(the `(?<!\n)` lookbehind) it tries to match the token pattern, and on a
match emits a `\n` before the matched span and resumes after it. -/

/-- Token of pass 1: `\s*\[\s*\d{1,3}\s*\]\s+` (length of the match, if
the pattern matches at the head of `l`; the character classes are
disjoint from the delimiters, so the greedy runs are forced maximal). -/
def tokBracket (l : List Char) : Option Nat :=
  let w1 := countWs l
  match l.drop w1 with
  | '[' :: l2 =>
      let w2 := countWs l2
      let l3 := l2.drop w2
      let d := countDigits l3
      if 1 ≤ d ∧ d ≤ 3 then
        let l4 := l3.drop d
        let w3 := countWs l4
        match l4.drop w3 with
        | ']' :: l5 =>
            let w4 := countWs l5
            if 1 ≤ w4 then some (w1 + 1 + w2 + d + w3 + 1 + w4) else none
        | _ => none
      else none
  | _ => none

/-- Token of pass 2: `\s*\d{1,3}\s*[\.)]\s+` (a digit run longer than 3
cannot match, because backtracking still meets a digit where `[\.)]` is
required). -/
def tokNumDot (l : List Char) : Option Nat :=
  let w1 := countWs l
  let l1 := l.drop w1
  let d := countDigits l1
  if 1 ≤ d ∧ d ≤ 3 then
    let l2 := l1.drop d
    let w2 := countWs l2
    match l2.drop w2 with
    | c :: l3 =>
        if c = '.' ∨ c = ')' then
          let w3 := countWs l3
          if 1 ≤ w3 then some (w1 + d + w2 + 1 + w3) else none
        else none
    | _ => none
  else none

/-- Token of pass 3: `\s*[•\-–]\s+`. -/
def tokBullet (l : List Char) : Option Nat :=
  let w1 := countWs l
  match l.drop w1 with
  | c :: l2 =>
      if c = '•' ∨ c = '-' ∨ c = '–' then
        let w2 := countWs l2
        if 1 ≤ w2 then some (w1 + 1 + w2) else none
      else none
  | _ => none

/-- One `re.sub(r"(?<!\n)(TOKEN)", r"\n\1", ·)` pass: `prev` is the
character preceding the current position in the original string. -/
def insertPass (tok : List Char → Option Nat) (l : List Char) : List Char :=
  go (l.length + 1) none l
where
  go : Nat → Option Char → List Char → List Char
    | 0, _, l => l
    | _ + 1, _, [] => []
    | fuel + 1, prev, c :: rest =>
        if prev = some '\n' then c :: go fuel (some c) rest
        else
          match tok (c :: rest) with
          | some k =>
              let matched := (c :: rest).take k
              '\n' :: matched ++ go fuel matched.getLast? ((c :: rest).drop k)
          | none => c :: go fuel (some c) rest

/-- `_insert_segment_newlines` (lines 218-223): three sequential passes. -/
def insert_segment_newlines (s : String) : String :=
  String.mk (insertPass tokBullet (insertPass tokNumDot
    (insertPass tokBracket s.data)))

/-- The Text Normalizer of the spec: `_insert_segment_newlines` composed
with `_normalize_text`, exactly as every extraction path applies them
(lines 237-238, 523-524, 535-536, 555-556). -/
def normalizer (s : String) : String :=
  insert_segment_newlines (normalize_text s)

/-! ### Reference Block Locator — `_find_references_block` (lines 242-279)

Every heading/tail pattern is a word-bounded case-insensitive literal
(optional suffixes like `S?` and `(Y|IES)` are expanded into alternative
literals; an optional suffix with a trailing `\b` matches at a position
iff one of the expansions does).  For such literals `re.finditer`
returns exactly the set of word-bounded occurrences: two occurrences can
never overlap, because a later start inside an earlier match would be
preceded by a word character, failing `\b`. -/

/-- `\b` holds before position `i` (no word character at `i - 1`). -/
def noWordBefore (s : List Char) (i : Nat) : Bool :=
  match i with
  | 0 => true
  | j + 1 =>
      match s.get? j with
      | some c => !isWordC c
      | none => true

/-- No word character at position `j` (so `\b` holds after a word ending
at `j`). -/
def noWordAt (s : List Char) (j : Nat) : Bool :=
  match s.get? j with
  | some c => !isWordC c
  | none => true

/-- Word-bounded case-insensitive occurrence of literal `w` at `i`. -/
def wordLitAt (s : List Char) (i : Nat) (w : String) : Bool :=
  noWordBefore s i && ciStarts w.data (s.drop i) && noWordAt s (i + w.length)

/-- One heading/tail pattern: any of its alternative literals matches. -/
def patAt (s : List Char) (i : Nat) (pat : List String) : Bool :=
  pat.any fun w => wordLitAt s i w

/-- The heading patterns of `_find_references_block`, in source order. -/
def headingsPats : List (List String) :=
  [["REFERENCES"], ["References"], ["Bibliography"], ["BIBLIOGRAPHY"],
   ["Reference"], ["Works Cited"], ["REFERENCES AND NOTES"],
   ["References and Notes"]]

/-- The tail-marker patterns, in source order (`ACKNOWLEDGMENTS?`,
`BIOGRAPH(Y|IES)` and `AUTHORS?` expanded into alternatives). -/
def tailsPats : List (List String) :=
  [["ACKNOWLEDGMENTS", "ACKNOWLEDGMENT"], ["Appendix"], ["APPENDIX"],
   ["Supplementary"], ["SUPPLEMENTARY"], ["BIOGRAPHY", "BIOGRAPHIES"],
   ["AUTHORS", "AUTHOR"], ["Index"]]

/-- One step of the tail-marker truncation fold: take the minimum with
the first occurrence of pattern `t` in `blk`, if any. -/
def tailStep (blk : List Char) (acc : Nat) (t : List String) : Nat :=
  match ((List.range blk.length).filter fun i => patAt blk i t).head? with
  | some i => min acc i
  | none => acc

/-- `_find_references_block` (lines 242-279): cut from the last heading
occurrence, truncate at the first tail occurrence; without any heading,
return the last 30000 characters with `found = False`. -/
def find_references_block (text : String) : String × Bool :=
  let s := text.data
  let occ := headingsPats.flatMap fun h =>
    (List.range s.length).filter fun i => patAt s i h
  let last_pos : Int := occ.foldl (fun (a : Int) (i : Nat) => max a (i : Int)) (-1)
  if 0 ≤ last_pos then
    let blk := s.drop last_pos.toNat
    let tail_pos := tailsPats.foldl (tailStep blk) blk.length
    (String.mk (blk.take tail_pos), true)
  else (String.mk (s.drop (s.length - 30000)), false)

/-- Some heading pattern matches at position `i`. -/
def heading_at (s : List Char) (i : Nat) : Bool :=
  headingsPats.any fun h => patAt s i h

/-- Some tail-marker pattern matches at position `i`. -/
def tail_at (s : List Char) (i : Nat) : Bool :=
  tailsPats.any fun t => patAt s i t

/-! ### Anchor segmentation — `_anchor_iter` / `_segment_references`
(lines 283-303, duplicated verbatim inside `_count_entries_in_block`,
lines 308-327; a single definition serves both). -/

/-- The anchor body `\s*(\[(?P<b>\d{1,3})\]|(?P<n>\d{1,3})[\.)])\s+`
at the head of `l` (after the `(^|\n)` group): returns the consumed
length and the numeral.  The shared `\s*` is forced maximal (no
whitespace char can begin either alternative), and a digit run longer
than 3 fails both alternatives even under backtracking. -/
def anchorCore (l : List Char) : Option (Nat × Int) :=
  let w := countWs l
  let l1 := l.drop w
  let tryBracket : Option (Nat × Int) :=
    match l1 with
    | '[' :: l2 =>
        let d := countDigits l2
        if 1 ≤ d ∧ d ≤ 3 then
          match l2.drop d with
          | ']' :: l3 =>
              let w2 := countWs l3
              if 1 ≤ w2 then
                some (w + 1 + d + 1 + w2, (digitsToNat (l2.take d) : Int))
              else none
          | _ => none
        else none
    | _ => none
  match tryBracket with
  | some r => some r
  | none =>
      let d := countDigits l1
      if 1 ≤ d ∧ d ≤ 3 then
        match l1.drop d with
        | c :: l3 =>
            if c = '.' ∨ c = ')' then
              let w2 := countWs l3
              if 1 ≤ w2 then
                some (w + d + 1 + w2, (digitsToNat (l1.take d) : Int))
              else none
            else none
        | _ => none
      else none

/-- `^` of `re.MULTILINE` holds at `p`. -/
def lineStartAt (s : List Char) (p : Nat) : Bool :=
  match p with
  | 0 => true
  | j + 1 => s.get? j = some '\n'

/-- Attempt of `anchor_re` at position `p` of `s` (with `re.MULTILINE`):
the group `(^|\n)` first matches empty at a line start, else consumes a
literal newline.  Returns the total consumed length and the numeral. -/
def anchorAttempt (s : List Char) (p : Nat) : Option (Nat × Int) :=
  let viaCaret : Option (Nat × Int) :=
    if lineStartAt s p then anchorCore (s.drop p) else none
  match viaCaret with
  | some r => some r
  | none =>
      if s.get? p = some '\n' then
        match anchorCore (s.drop (p + 1)) with
        | some (k, n) => some (k + 1, n)
        | none => none
      else none

/-- `re.finditer(anchor_re, block)`: non-overlapping scan, leftmost
first, resuming after each match.  Yields `(m.start(), numeral)`. -/
def anchorScan (s : List Char) : List (Nat × Int) :=
  go (s.length + 1) 0
where
  go : Nat → Nat → List (Nat × Int)
    | 0, _ => []
    | fuel + 1, p =>
        if p < s.length then
          match anchorAttempt s p with
          | some (k, num) => (p, num) :: go fuel (p + k)
          | none => go fuel (p + 1)
        else []

/-- A reference segment: anchor start, end, stripped text, numeral. -/
structure Seg where
  pos : Nat
  ends : Nat
  txt : List Char
  num : Int
  deriving Repr, DecidableEq

/-- `_segment_references` (lines 294-303): each segment spans from one
anchor start to the next anchor start (or the end of the block). -/
def segment_references (block : List Char) : List Seg :=
  go (anchorScan block)
where
  go : List (Nat × Int) → List Seg
    | [] => []
    | (pos, num) :: rest =>
        let e := match rest with
          | (p2, _) :: _ => p2
          | [] => block.length
        { pos := pos, ends := e,
          txt := stripChars ((block.drop pos).take (e - pos)), num := num }
          :: go rest

/-! ### `_looks_like_reference` (lines 329-351) -/

/-- Existence of a match of a head-matcher at some suffix (`re.search`). -/
def searchB (m : List Char → Bool) : List Char → Bool
  | [] => m []
  | c :: rest => m (c :: rest) || searchB m rest

/-- `(19|20)\d{2}` at the head. -/
def yearHead (l : List Char) : Bool :=
  match l with
  | '1' :: '9' :: a :: b :: _ => isDigitC a && isDigitC b
  | '2' :: '0' :: a :: b :: _ => isDigitC a && isDigitC b
  | _ => false

/-- `10\.\d{4,9}/` at the head (the greedy digit run must be the whole
run, 4–9 long, and be followed by `/`). -/
def doiMarkHead (l : List Char) : Bool :=
  match l with
  | '1' :: '0' :: '.' :: rest =>
      let d := countDigits rest
      if 4 ≤ d ∧ d ≤ 9 then
        match rest.drop d with
        | '/' :: _ => true
        | _ => false
      else false
  | _ => false

/-- `re.search(\bW\b, txt, re.IGNORECASE)`.  The optional trailing dot of
`\bProc\.?\b`, `\bvol\.?\b`, `\bno\.?\b`, `\bpp\.?\b` never changes
match existence: when the next character is `.` the undotted variant
already has its `\b` (dot is a non-word character), so `\bW\.?\b` and
`\bW\b` match at exactly the same positions. -/
def searchWordCIB (s : List Char) (w : String) : Bool :=
  (List.range s.length).any fun i => wordLitAt s i w

/-- `\bIn:\b` (IGNORECASE): after the colon, `\b` requires a word
character (the colon itself is a non-word character). -/
def searchInColon (s : List Char) : Bool :=
  (List.range s.length).any fun i =>
    noWordBefore s i && ciStarts "In".data (s.drop i) &&
      (match s.get? (i + 2) with
       | some ':' =>
           match s.get? (i + 3) with
           | some c => isWordC c
           | none => false
       | _ => false)

/-- The leading-junk class `[\s\[\d\).-]` of the author patterns. -/
def isLeadJunkC (c : Char) : Bool :=
  isWsC c || c = '[' || isDigitC c || c = ')' || c = '.' || c = '-'

/-- `^[\s\[\d\).-]*[A-Z][A-Za-z\-']+(,\s*[A-Z]\.)` at the start. -/
def looksAuthorA (txt : List Char) : Bool :=
  match txt.dropWhile isLeadJunkC with
  | c :: rest =>
      if isUpperC c then
        let r := (rest.takeWhile isSurnameC).length
        if 1 ≤ r then
          match rest.drop r with
          | ',' :: l2 =>
              match l2.drop (countWs l2) with
              | d :: '.' :: _ => isUpperC d
              | _ => false
          | _ => false
        else false
      else false
  | [] => false

/-- `^[\s\[\d\).-]*[A-Z]\.[\s-]*[A-Z][A-Za-z\-']+` at the start. -/
def looksAuthorB (txt : List Char) : Bool :=
  match txt.dropWhile isLeadJunkC with
  | c :: '.' :: rest =>
      if isUpperC c then
        match rest.dropWhile (fun d => isWsC d || d = '-') with
        | d :: rest2 => isUpperC d && 1 ≤ (rest2.takeWhile isSurnameC).length
        | [] => false
      else false
  | _ => false

/-- The bibliographic-marker disjunction of `_looks_like_reference`
(lines 337-344), in source order. -/
def biblio_markers (txt : List Char) : Bool :=
  searchWordCIB txt "doi" || searchB doiMarkHead txt ||
  searchWordCIB txt "arXiv" || searchWordCIB txt "Proc" ||
  searchWordCIB txt "Proceedings" || searchWordCIB txt "Journal" ||
  searchWordCIB txt "Conference" || searchWordCIB txt "ACM" ||
  searchWordCIB txt "IEEE" || searchWordCIB txt "Springer" ||
  searchWordCIB txt "Elsevier" || searchWordCIB txt "Wiley" ||
  searchWordCIB txt "CEUR" || searchWordCIB txt "LNCS" ||
  searchWordCIB txt "vol" || searchWordCIB txt "no" ||
  searchWordCIB txt "pp" || searchInColon txt

/-- `_looks_like_reference` (lines 329-351). -/
def looks_like_reference (text_line : List Char) : Bool :=
  let txt := stripChars text_line
  if txt.length < 40 then false
  else if !searchB yearHead txt then false
  else if biblio_markers txt then true
  else if looksAuthorA txt then true
  else if looksAuthorB txt then true
  else false

/-! ### Multi-Signal Counter — `_count_entries_in_block` (lines 306-512)

Each detector pattern `(?:^|\n)TOKEN` is scanned like `re.finditer`:
leftmost match first, resuming after each match; at a position the `^`
alternative is tried first (it matches at 0, and with `re.MULTILINE`
also right after a newline), then the `\n` alternative consumes a
literal newline. -/

/-- Non-overlapping scan of `(?:^|\n)TOKEN` returning `(start, length)`
pairs; `multiline` selects the `re.MULTILINE` meaning of `^`. -/
def scanStarts (multiline : Bool) (tok : List Char → Option Nat)
    (s : List Char) : List (Nat × Nat) :=
  go (s.length + 1) 0
where
  go : Nat → Nat → List (Nat × Nat)
    | 0, _ => []
    | fuel + 1, p =>
        if p < s.length then
          let caretOK := if multiline then lineStartAt s p else p = 0
          let att : Option Nat :=
            match (if caretOK then tok (s.drop p) else none) with
            | some k => some k
            | none =>
                if s.get? p = some '\n' then
                  match tok (s.drop (p + 1)) with
                  | some k => some (k + 1)
                  | none => none
                else none
          match att with
          | some k => (p, k) :: go fuel (p + max k 1)
          | none => go fuel (p + 1)
        else []

/-- Non-overlapping scan of an unanchored pattern. -/
def scanPlain (tok : List Char → Option Nat) (s : List Char) :
    List (Nat × Nat) :=
  go (s.length + 1) 0
where
  go : Nat → Nat → List (Nat × Nat)
    | 0, _ => []
    | fuel + 1, p =>
        if p < s.length then
          match tok (s.drop p) with
          | some k => (p, k) :: go fuel (p + max k 1)
          | none => go fuel (p + 1)
        else []

/-- `re.findall(r"\[(\d{1,3})\]", block)`: bracketed numerals anywhere;
a failed attempt at `[` resumes one character later, a match resumes
after its `]`. -/
def bracketNums (s : List Char) : List Nat :=
  go (s.length + 1) s
where
  go : Nat → List Char → List Nat
    | 0, _ => []
    | _ + 1, [] => []
    | fuel + 1, '[' :: rest =>
        let d := countDigits rest
        if 1 ≤ d ∧ d ≤ 3 then
          match rest.drop d with
          | ']' :: rest2 => digitsToNat (rest.take d) :: go fuel rest2
          | _ => go fuel rest
        else go fuel rest
    | fuel + 1, _ :: rest => go fuel rest

/-- `re.split(r"\n{2,}", lines)`: split on maximal runs of at least two
newlines. -/
def splitParas (l : List Char) : List (List Char) :=
  go (l.length + 1) l []
where
  go : Nat → List Char → List Char → List (List Char)
    | 0, l, acc => [acc.reverse ++ l]
    | _ + 1, [], acc => [acc.reverse]
    | fuel + 1, '\n' :: rest, acc =>
        let run := rest.takeWhile fun c => c = '\n'
        if 1 ≤ run.length then acc.reverse :: go fuel (rest.drop run.length) []
        else go fuel rest ('\n' :: acc)
    | fuel + 1, c :: rest, acc => go fuel rest (c :: acc)

/-- `(19|20)\d{2}\)?[\.,]` with the optional closing parenthesis. -/
def yearParenClose (l : List Char) : Option Nat :=
  match l with
  | a :: b :: c :: d :: rest =>
      if ((a = '1' ∧ b = '9') ∨ (a = '2' ∧ b = '0')) ∧ isDigitC c ∧ isDigitC d then
        match rest with
        | ')' :: e :: _ => if e = '.' ∨ e = ',' then some 6 else none
        | e :: _ => if e = '.' ∨ e = ',' then some 5 else none
        | [] => none
      else none
  | _ => none

/-- `\(?(19|20)\d{2}\)?[\.,]`: with a leading `(` only the consuming
branch can proceed (a year never starts with `(`). -/
def parenYearTail (l : List Char) : Option Nat :=
  match l with
  | '(' :: rest => (yearParenClose rest).map (· + 1)
  | _ => yearParenClose l

/-- Lazy `[^\n]{0,budget}?` followed by `tl`: try the tail at each
offset, shortest first, never crossing a newline. -/
def lazyNonNl (tl : List Char → Option Nat) : Nat → List Char → Option Nat
  | _, [] => tl []
  | budget, c :: rest =>
      match tl (c :: rest) with
      | some k => some k
      | none =>
          match budget with
          | 0 => none
          | b + 1 =>
              if c = '\n' then none
              else
                match lazyNonNl tl b rest with
                | some m => some (m + 1)
                | none => none

/-- Body of `pat_year` (line 361) after `(?:^|\n)`:
`\s*[A-Z][^\n]{2,200}?\(?(19|20)\d{2}\)?[\.,]`. -/
def patYearTok (l : List Char) : Option Nat :=
  let w := countWs l
  match l.drop w with
  | c :: a :: b :: rest =>
      if isUpperC c ∧ a ≠ '\n' ∧ b ≠ '\n' then
        (lazyNonNl parenYearTail 198 rest).map fun k => w + 3 + k
      else none
  | _ => none

/-- `re.search` of a `(?:^|\n)TOKEN` pattern without `re.MULTILINE`:
a match starts at 0 (via `^`) or consumes some newline. -/
def searchPreLineTok (tok : List Char → Option Nat) (s : List Char) : Bool :=
  (tok s).isSome ||
    ((List.range s.length).any fun i =>
      s.get? i = some '\n' && (tok (s.drop (i + 1))).isSome)

/-- `W` followed by the punctuation character `pc`, with `\b` after `pc`
(needs a word character next, since `pc` is a non-word character). -/
def markPunct (s : List Char) (i : Nat) (w : String) (pc : Char) : Bool :=
  ciStarts w.data (s.drop i) && s.get? (i + w.length) = some pc &&
    (match s.get? (i + w.length + 1) with
     | some c => isWordC c
     | none => false)

/-- Plain word alternative with trailing `\b`. -/
def markPlain (s : List Char) (i : Nat) (w : String) : Bool :=
  ciStarts w.data (s.drop i) && noWordAt s (i + w.length)

/-- The paragraph-marker alternation of line 380
`\b(doi:|vol\.|no\.|pp\.|Proc\.|Journal|Conference|ACM|IEEE|Springer)\b`
(IGNORECASE) at position `i`. -/
def paraMarkAt (s : List Char) (i : Nat) : Bool :=
  noWordBefore s i &&
    (markPunct s i "doi" ':' || markPunct s i "vol" '.' ||
     markPunct s i "no" '.' || markPunct s i "pp" '.' ||
     markPunct s i "Proc" '.' || markPlain s i "Journal" ||
     markPlain s i "Conference" || markPlain s i "ACM" ||
     markPlain s i "IEEE" || markPlain s i "Springer")

/-- `re.search` of the paragraph-marker alternation. -/
def paraMarkSearch (s : List Char) : Bool :=
  (List.range s.length).any fun i => paraMarkAt s i

/-- `10\.[^\s]+` (at least one non-whitespace character after `10.`). -/
def check10 (l : List Char) : Bool :=
  match l with
  | '1' :: '0' :: '.' :: c :: _ => !isWsC c
  | _ => false

/-- `doi\s*[: ]\s*10\.[^\s]+` (IGNORECASE) at the head: the separator is
either a space inside the whitespace run after `doi` or a colon right
after it.  The `(?:^|\n).*?` prefix of `pat_doi` (line 362) imposes no
further constraint: every occurrence lies in some line, whose start the
lazy `.*?` reaches. -/
def doiLabelHead (l : List Char) : Bool :=
  match l with
  | a :: b :: c :: rest =>
      if lowerC a = 'd' ∧ lowerC b = 'o' ∧ lowerC c = 'i' then
        let run := rest.takeWhile isWsC
        let after := rest.drop run.length
        (run.contains ' ' && check10 after) ||
          (match after with
           | ':' :: r2 => check10 (r2.drop (countWs r2))
           | _ => false)
      else false
  | _ => false

/-- `[A-Z][A-Za-z\-']+` (surname word of `author_line`), its length. -/
def surnameWordLen (l : List Char) : Option Nat :=
  match l with
  | c :: rest =>
      if isUpperC c then
        let r := (rest.takeWhile isSurnameC).length
        if 1 ≤ r then some (1 + r) else none
      else none
  | [] => none

/-- `.*?(19|20)\d{2}`: lazy scan to a year within the current line. -/
def tailToYear : List Char → Option Nat
  | [] => none
  | c :: rest =>
      if yearHead (c :: rest) then some 4
      else if c = '\n' then none
      else
        match tailToYear rest with
        | some m => some (m + 1)
        | none => none

/-- `(?:[A-Z](?:\.[\s-]?))+.*?(19|20)\d{2}`: the initials group (an
upper-case letter, a mandatory dot, an optional whitespace-or-hyphen)
iterated at least once — greedily preferring the longer variant and a
further iteration — followed by the lazy scan to a year. -/
def gPlus : Nat → List Char → Option Nat
  | 0, _ => none
  | fuel + 1, l =>
      match l with
      | c :: rest =>
          if isUpperC c then
            let vars : List (Nat × List Char) :=
              match rest with
              | '.' :: d :: r2 =>
                  if isWsC d || d = '-' then [(2, r2), (1, d :: r2)]
                  else [(1, d :: r2)]
              | '.' :: [] => [(1, [])]
              | _ => []
            vars.findSome? fun q =>
              match gPlus fuel q.2 with
              | some m => some (1 + q.1 + m)
              | none => (tailToYear q.2).map fun m => 1 + q.1 + m
          else none
      | [] => none

/-- `(?:\s[A-Z][A-Za-z\-']+)*,\s*INITIALS…`: greedily extend with
single-whitespace-separated surname words, falling back to closing at
the comma. -/
def authorWordsStar : Nat → List Char → Option Nat
  | 0, _ => none
  | fuel + 1, l =>
      let ext : Option Nat :=
        match l with
        | c :: rest =>
            if isWsC c then
              match surnameWordLen rest with
              | some k =>
                  match authorWordsStar fuel (rest.drop k) with
                  | some m => some (1 + k + m)
                  | none => none
              | none => none
            else none
        | [] => none
      match ext with
      | some r => some r
      | none =>
          match l with
          | ',' :: rest =>
              let w := countWs rest
              match gPlus (rest.length + 1) (rest.drop w) with
              | some m => some (1 + w + m)
              | none => none
          | _ => none

/-- Body of `author_line` (lines 386-389) after `(?:^|\n)`:
`\s*[A-Z][A-Za-z\-']+(?:\s[A-Z][A-Za-z\-']+)*,\s*(?:[A-Z](?:\.[\s-]?))+.*?(19|20)\d{2}`. -/
def authorLineTok (l : List Char) : Option Nat :=
  let w := countWs l
  match surnameWordLen (l.drop w) with
  | some k =>
      match authorWordsStar ((l.drop (w + k)).length + 1) (l.drop (w + k)) with
      | some m => some (w + k + m)
      | none => none
  | none => none

/-- `[A-Z][A-Za-zÀ-ÖØ-öø-ÿ'’-]+` (full-name word), its length. -/
def nameWordLen (l : List Char) : Option Nat :=
  match l with
  | c :: rest =>
      if isUpperC c then
        let r := (rest.takeWhile isNameC).length
        if 1 ≤ r then some (1 + r) else none
      else none
  | [] => none

/-- `(?:\s[A-Z][W]+)+\s*,`: at least one further name word, each after a
single whitespace character, closed by `\s*,`. -/
def fnameWordsPlus : Nat → List Char → Option Nat
  | 0, _ => none
  | fuel + 1, l =>
      match l with
      | c :: rest =>
          if isWsC c then
            match nameWordLen rest with
            | some k =>
                match fnameWordsPlus fuel (rest.drop k) with
                | some m => some (1 + k + m)
                | none =>
                    let l2 := rest.drop k
                    let w := countWs l2
                    match l2.drop w with
                    | ',' :: _ => some (1 + k + w + 1)
                    | _ => none
            | none => none
          else none
      | [] => none

/-- Body of `author_fname_line` (lines 393-396) after `(?:^|\n)`, which
is also the `^`-anchored `author_line_start` pattern (line 453) and the
fallback boundary pattern of `_extract_reference_segments` (line 710):
`\s*[A-Z][W]+(?:\s[A-Z][W]+)+\s*,` over the full-name word class. -/
def fnameTok (l : List Char) : Option Nat :=
  let w := countWs l
  match nameWordLen (l.drop w) with
  | some k =>
      match fnameWordsPlus ((l.drop (w + k)).length + 1) (l.drop (w + k)) with
      | some m => some (w + k + m)
      | none => none
  | none => none

/-- The organisation-name class `[A-Za-z0-9 .&/\-]`. -/
def isCorpC (c : Char) : Bool :=
  isAlphaC c || isDigitC c || c = ' ' || c = '.' || c = '&' || c = '/' || c = '-'

/-- `(19|20)\d{2}\.` at the head. -/
def yearDotHead (l : List Char) : Option Nat :=
  match l with
  | a :: b :: c :: d :: '.' :: _ =>
      if ((a = '1' ∧ b = '9') ∨ (a = '2' ∧ b = '0')) ∧ isDigitC c ∧ isDigitC d then
        some 5
      else none
  | _ => none

/-- `\.?\s*(19|20)\d{2}\.`: with a leading dot only the consuming branch
can proceed. -/
def corpTail (l : List Char) : Option Nat :=
  match l with
  | '.' :: rest =>
      let w := countWs rest
      (yearDotHead (rest.drop w)).map fun k => 1 + w + k
  | _ =>
      let w := countWs l
      (yearDotHead (l.drop w)).map fun k => w + k

/-- Greedy `{2,40}` repetition of the organisation class: try the prefix
length `k` first, then shorter, down to 2. -/
def corpTryK (rest : List Char) : Nat → Option Nat
  | 0 => none
  | 1 => none
  | k + 2 =>
      match corpTail (rest.drop (k + 2)) with
      | some m => some (k + 2 + m)
      | none => corpTryK rest (k + 1)

/-- Body of `corp_year` (line 418) after `(?:^|\n)`:
`\s*[A-Z][A-Za-z0-9 .&/\-]{2,40}\.?\s*(19|20)\d{2}\.`. -/
def corpTok (l : List Char) : Option Nat :=
  let w := countWs l
  match l.drop w with
  | c :: rest =>
      if isUpperC c then
        (corpTryK rest (min (rest.takeWhile isCorpC).length 40)).map
          fun r => w + 1 + r
      else none
  | [] => none

/-- `(19|20)\d{2}[a-z]?\.` at the head (greedy optional letter). -/
def yearLetterDotHead (l : List Char) : Option Nat :=
  match l with
  | a :: b :: c :: d :: rest =>
      if ((a = '1' ∧ b = '9') ∨ (a = '2' ∧ b = '0')) ∧ isDigitC c ∧ isDigitC d then
        match rest with
        | e :: r2 =>
            if isLowerC e then
              match r2 with
              | '.' :: _ => some 6
              | _ => none
            else if e = '.' then some 5 else none
        | [] => none
      else none
  | _ => none

/-- Greedy `\s*` of `year_lead`: the longest whitespace prefix first. -/
def yearLeadTokAux (l : List Char) : Nat → Option Nat
  | 0 => lazyNonNl yearLetterDotHead 300 l
  | w + 1 =>
      match lazyNonNl yearLetterDotHead 300 (l.drop (w + 1)) with
      | some k => some (w + 1 + k)
      | none => yearLeadTokAux l w

/-- Body of `year_lead` (line 422) after `(?:^|\n)`:
`\s*[^\n]{0,300}?(19|20)\d{2}[a-z]?\.`. -/
def yearLeadTok (l : List Char) : Option Nat :=
  yearLeadTokAux l (countWs l)

/-- The DOI-tail class `[^\s)\]};,]`. -/
def isDoiTailC (c : Char) : Bool :=
  !(isWsC c || c = ')' || c = ']' || c = '}' || c = ';' || c = ',')

/-- `doi_capture` (line 363): `10\.[0-9]{4,9}/[^\s)\]};,]+`. -/
def doiCaptureTok (l : List Char) : Option Nat :=
  match l with
  | '1' :: '0' :: '.' :: rest =>
      let d := countDigits rest
      if 4 ≤ d ∧ d ≤ 9 then
        match rest.drop d with
        | '/' :: r2 =>
            let t := (r2.takeWhile isDoiTailC).length
            if 1 ≤ t then some (3 + d + 1 + t) else none
        | _ => none
      else none
  | _ => none

/-- Consecutive anchor distances (lines 403). -/
def distsOf : List Nat → List Nat
  | a :: b :: rest => (b - a) :: distsOf (b :: rest)
  | _ => []

/-- The author-cluster estimate (lines 399-415): an inter-quartile-range
outlier threshold over the gaps (`int(0.25*(len-1))` and
`int(0.75*(len-1))` are the exact floors `(len-1)/4` and `3*(len-1)/4`,
the factors 0.25 and 0.75 being exact binary floats). -/
def clustersOf (positions : List Nat) : Nat :=
  match positions with
  | [] => 0
  | _ :: _ =>
      let dists := distsOf positions
      let thr : ℚ :=
        match dists with
        | [] => 300
        | _ :: _ =>
            let sd := dists.insertionSort (· ≤ ·)
            let k := sd.length - 1
            let p25 := sd.getD (k / 4) 0
            let p75 := sd.getD (3 * k / 4) 0
            let iqr := max 1 (p75 - p25)
            max 200 ((p75 : ℚ) + (iqr : ℚ) / 2)
      1 + (dists.filter fun d => thr < (d : ℚ)).length

/-- The contiguity ratio (lines 434-447): over a non-empty label list,
`len(sorted(set(nums))) / (max - min + 1)`, else 0. -/
def contig_of (nums : List ℤ) : ℚ :=
  match nums with
  | [] => 0
  | a :: rest =>
      let mx := rest.foldl max a
      let mn := rest.foldl min a
      let expected := mx - mn + 1
      if 0 < expected then Rat.divInt ((a :: rest).dedup.length : ℤ) expected
      else 0

/-- Boundary transitions (lines 450-458): a period-terminated line
followed by an author-style line. -/
def boundaryPairs : List (List Char) → Nat
  | a :: b :: rest =>
      (if (rstripChars a).getLast? = some '.' ∧ (fnameTok b).isSome then 1 else 0)
        + boundaryPairs (b :: rest)
  | _ => 0

/-- `c_by_boundaries` (line 458). -/
def boundariesCount (b : List Char) : Nat :=
  let c := boundaryPairs (splitLinesChars b)
  if 0 < c then c + 1 else 0

/-- Round half to even (the rounding of `float.__format__`), computed on
the reduced fraction: the floor is `num.fdiv den` and the tie test
compares twice the remainder against the denominator. -/
def roundHalfEvenQ (q : ℚ) : ℤ :=
  let n := q.num
  let d := (q.den : ℤ)
  let f := n.fdiv d
  let r2 := 2 * (n - f * d)
  if r2 < d then f
  else if d < r2 then f + 1
  else if f % 2 = 0 then f else f + 1

/-- Python `f"{x:.2f}"` for the (non-negative, small) contiguity ratios,
on the exact rational value (`q * 100` formed as a raw fraction). -/
def fmt2 (q : ℚ) : String :=
  let t := roundHalfEvenQ (Rat.divInt (q.num * 100) (q.den : ℤ))
  let ip := t / 100
  let fp := (t % 100).toNat
  toString ip ++ "." ++ (if fp < 10 then "0" ++ toString fp else toString fp)

/-- The selection policy (lines 460-505).  Float thresholds are exact
rationals: `int(0.7*x)` and `int(1.1*x)` are modelled as `7*x/10` and
`11*x/10` (floor division); the float products differ from the exact
value only by one unit in the last place, and no theorem below sits on
such a tie. -/
def select_count (seg_count c_sq c_dot c_bullet c_labels_unique c_paras
    c_author_start c_author_fname_start c_corp_year c_dois_unique
    c_author_clusters c_by_boundaries c_year_lead : Nat)
    (contig contigAll : ℚ) : String × Nat :=
  let candidates : List (String × Nat) :=
    [("segmented", seg_count), ("square", c_sq), ("numbered", c_dot),
     ("bullet", c_bullet), ("labels_unique", c_labels_unique),
     ("paragraph", c_paras), ("author_start", c_author_start),
     ("author_fname_start", c_author_fname_start),
     ("corp_year", c_corp_year), ("dois_unique", c_dois_unique),
     ("author_clusters", c_author_clusters),
     ("boundaries", c_by_boundaries), ("year_lead", c_year_lead)]
  let best := candidates.foldl (fun a b => if a.2 < b.2 then b else a)
    ("segmented", seg_count)
  if 5 ≤ seg_count ∧ ((1 : ℚ) / 2 ≤ contig ∨ 0 < c_sq) then
    if 5 ≤ c_labels_unique ∧ seg_count < 7 * c_labels_unique / 10 ∧
        (6 : ℚ) / 10 ≤ contigAll then
      ("labels_unique_contig", c_labels_unique)
    else ("segmented", seg_count)
  else
    if 5 ≤ c_author_start ∧ (best.2 : ℚ) * (8 / 10) ≤ (c_author_start : ℚ) then
      ("author_start", c_author_start)
    else if 5 ≤ c_author_fname_start then
      if 5 ≤ c_author_clusters ∧
          ((best.2 : ℚ) * (7 / 10) ≤ (c_author_clusters : ℚ) ∨
            c_author_clusters ≤ 300) then
        ("author_clusters", c_author_clusters)
      else ("author_fname_start", c_author_fname_start)
    else if 3 ≤ c_corp_year ∧ (best.2 : ℚ) * (7 / 10) ≤ (c_corp_year : ℚ) then
      ("corp_year", c_corp_year)
    else if 5 ≤ c_dois_unique ∧ (best.2 : ℚ) * (8 / 10) ≤ (c_dois_unique : ℚ) then
      ("dois_unique", c_dois_unique)
    else if (5 ≤ c_year_lead ∧ c_year_lead ≤ 300) ∧
        ((max best.2 c_author_fname_start : Nat) : ℚ) * (8 / 10) ≤ (c_year_lead : ℚ) then
      ("year_lead", c_year_lead)
    else if 5 ≤ c_by_boundaries ∧ (best.2 : ℚ) * (7 / 10) ≤ (c_by_boundaries : ℚ) then
      ("boundaries", c_by_boundaries)
    else
      if c_labels_unique ≠ 0 ∧ 11 * c_labels_unique / 10 < best.2 then
        (best.1 ++ "->labels_unique_cap", c_labels_unique)
      else best

/-- The rationale string (lines 507-511). -/
def counts_reason (label : String) (seg_count c_sq c_dot c_bullet
    c_labels_unique c_paras c_author_start c_author_fname_start c_corp_year
    c_dois_unique c_author_clusters c_by_boundaries c_year_lead : Nat)
    (contig contigAll : ℚ) : String :=
  "pattern=" ++ label ++
  (" counts=\x7bsegmented:" ++ toString seg_count ++
    ", square:" ++ toString c_sq ++ ", numbered:" ++ toString c_dot ++
    ", bullet:" ++ toString c_bullet ++
    ", labels_unique:" ++ toString c_labels_unique ++
    ", paragraph:" ++ toString c_paras ++
    ", author_start:" ++ toString c_author_start ++
    ", author_fname_start:" ++ toString c_author_fname_start ++
    ", corp_year:" ++ toString c_corp_year ++
    ", dois_unique:" ++ toString c_dois_unique ++
    ", author_clusters:" ++ toString c_author_clusters ++
    ", boundaries:" ++ toString c_by_boundaries ++
    ", year_lead:" ++ toString c_year_lead ++
    "\x7d contig=" ++ fmt2 contig ++ " contig_all=" ++ fmt2 contigAll)

/-- The validated segments of a block (line 431). -/
def valid_segments (block : List Char) : List Seg :=
  (segment_references block).filter fun s => looks_like_reference s.txt

/-- The de-duplicated bracket labels of a block (lines 370-372). -/
def labels_unique_list (block : List Char) : List Nat :=
  ((bracketNums block).filter fun n => 0 < n ∧ n < 1000).dedup

/-- `_count_entries_in_block` (lines 306-512). -/
def count_entries_in_block (block : String) : Nat × String :=
  let b := block.data
  let c_sq := (scanStarts false tokBracket b).length
  let c_dot := (scanStarts false tokNumDot b).length
  let c_bullet := (scanStarts false tokBullet b).length
  let labels := labels_unique_list b
  let c_labels_unique := labels.length
  let paras := ((splitParas b).map stripChars).filter fun p => p ≠ []
  let c_paras := (paras.filter fun p =>
    50 ≤ p.length ∧ searchPreLineTok patYearTok p ∧
      (paraMarkSearch p || searchB doiLabelHead p)).length
  let c_author_start := (scanStarts true authorLineTok b).length
  let fnamePos := (scanStarts false fnameTok b).map Prod.fst
  let c_author_fname_start := fnamePos.length
  let c_author_clusters := clustersOf fnamePos
  let c_corp_year := (scanStarts false corpTok b).length
  let c_year_lead := (scanStarts true yearLeadTok b).length
  let dois := ((scanPlain doiCaptureTok b).map fun q =>
    (b.drop q.1).take q.2).dedup
  let c_dois_unique := dois.length
  let vsegs := valid_segments b
  let nums := (vsegs.map Seg.num).filter fun n => 0 < n
  let contig := contig_of nums
  let contigAll := contig_of (labels.map fun n => (n : ℤ))
  let seg_count := vsegs.length
  let c_by_boundaries := boundariesCount b
  let sel := select_count seg_count c_sq c_dot c_bullet c_labels_unique
    c_paras c_author_start c_author_fname_start c_corp_year c_dois_unique
    c_author_clusters c_by_boundaries c_year_lead contig contigAll
  (sel.2, counts_reason sel.1 seg_count c_sq c_dot c_bullet c_labels_unique
    c_paras c_author_start c_author_fname_start c_corp_year c_dois_unique
    c_author_clusters c_by_boundaries c_year_lead contig contigAll)

/-! ### Reference Segmenter — `_extract_reference_segments` (lines 693-719) -/

/-- `" ".join(cur)`. -/
def joinSpace (ls : List (List Char)) : List Char :=
  List.intercalate [' '] ls

/-- The boundary-heuristic fallback (lines 703-719): close the
accumulating segment when a line ends with a period and the next line
matches the author-at-line-start pattern; keep a chunk only when the
joined, stripped text is at least 40 characters long. -/
def boundary_chunks (lines : List (List Char)) : List (List Char) :=
  go lines []
where
  go : List (List Char) → List (List Char) → List (List Char)
    | [], cur =>
        match cur with
        | [] => []
        | _ =>
            let chunk := stripChars (joinSpace cur.reverse)
            if 40 ≤ chunk.length then [chunk] else []
    | ln :: rest, cur =>
        let cur' := ln :: cur
        let nxt := rest.head?.getD []
        if ln.getLast? = some '.' ∧ (fnameTok nxt).isSome then
          let chunk := stripChars (joinSpace cur'.reverse)
          (if 40 ≤ chunk.length then [chunk] else []) ++ go rest []
        else go rest cur'

/-- `_extract_reference_segments` (lines 693-719): anchor-based segments
of at least 40 characters; if fewer than 5, the boundary fallback. -/
def extract_reference_segments (text : String) : List String :=
  let block := (find_references_block text).1.data
  let segs := ((segment_references block).map Seg.txt).filter
    fun t => 40 ≤ t.length
  if 5 ≤ segs.length then segs.map String.mk
  else
    let lines := (splitLinesChars block).map rstripChars
    (boundary_chunks lines).map String.mk

/-! ### Reference Parser — `_parse_reference` (lines 722-765) -/

/-- A parsed reference (the dict returned by `_parse_reference`). -/
structure ParsedRef where
  raw : String
  doi : Option String
  year : Option Int
  title : Option String
  firstAuthor : Option String
  deriving Repr, DecidableEq

/-- `re.sub(r"^\s*(?:\[\s*\d{1,3}\s*\]|\d{1,3}[\.)])\s*", "", ·)`:
anchored, so at most one replacement; on no match the string (with its
leading whitespace) is kept. -/
def stripLeadMarker (l : List Char) : List Char :=
  let w := countWs l
  let l1 := l.drop w
  let core : Option Nat :=
    match l1 with
    | '[' :: l2 =>
        let w2 := countWs l2
        let l3 := l2.drop w2
        let d := countDigits l3
        if 1 ≤ d ∧ d ≤ 3 then
          let l4 := l3.drop d
          let w3 := countWs l4
          match l4.drop w3 with
          | ']' :: _ => some (1 + w2 + d + w3 + 1)
          | _ => none
        else none
    | _ => none
  let core2 : Option Nat :=
    match core with
    | some k => some k
    | none =>
        let d := countDigits l1
        if 1 ≤ d ∧ d ≤ 3 then
          match l1.drop d with
          | c :: _ => if c = '.' ∨ c = ')' then some (d + 1) else none
          | [] => none
        else none
  match core2 with
  | some k =>
      let l5 := l1.drop k
      l5.drop (countWs l5)
  | none => l

/-- Leftmost DOI-shaped substring (line 726). -/
def findDoi (l : List Char) : Option (List Char) :=
  match scanPlain doiCaptureTok l with
  | (p, k) :: _ => some ((l.drop p).take k)
  | [] => none

/-- `(19|20)\d{2}[a-z]?` at the head (greedy optional letter). -/
def yearLetterHead (l : List Char) : Option Nat :=
  match l with
  | a :: b :: c :: d :: rest =>
      if ((a = '1' ∧ b = '9') ∨ (a = '2' ∧ b = '0')) ∧ isDigitC c ∧ isDigitC d then
        match rest with
        | e :: _ => if isLowerC e then some 5 else some 4
        | [] => some 4
      else none
  | _ => none

/-- Leftmost year match: `(m.start(), len(m.group(0)))` (line 729). -/
def findYear (l : List Char) : Option (Nat × Nat) :=
  match scanPlain yearLetterHead l with
  | (p, k) :: _ => some (p, k)
  | [] => none

/-- The parser's surname class `[A-Za-z'’-]`. -/
def isPaSurC (c : Char) : Bool :=
  isAlphaC c || c = '\'' || c = '’' || c = '-'

/-- `([A-Z][A-Za-z'’-]+)\s*,\s*[A-Z]` at the head; returns the length of
the captured group (which starts at the match start). -/
def m1Head (l : List Char) : Option Nat :=
  match l with
  | c :: rest =>
      if isUpperC c then
        let r := (rest.takeWhile isPaSurC).length
        if 1 ≤ r then
          let l2 := rest.drop r
          let w := countWs l2
          match l2.drop w with
          | ',' :: l3 =>
              let w2 := countWs l3
              match l3.drop w2 with
              | d :: _ => if isUpperC d then some (1 + r) else none
              | [] => none
          | _ => none
        else none
      else none
  | [] => none

/-- `re.search` with a leading captured group: leftmost match, returning
the captured prefix. -/
def searchCapture (tok : List Char → Option Nat) (l : List Char) :
    Option (List Char) :=
  go (l.length + 1) l
where
  go : Nat → List Char → Option (List Char)
    | 0, _ => none
    | _ + 1, [] =>
        match tok [] with
        | some _ => some []
        | none => none
    | fuel + 1, c :: rest =>
        match tok (c :: rest) with
        | some k => some ((c :: rest).take k)
        | none => go fuel rest

/-- The group body of `m2`: `[A-Z][A-Za-z'’-]+\s*,` with the capture. -/
def m2Core (sub : List Char) : Option (List Char) :=
  match sub with
  | c :: rest =>
      if isUpperC c then
        let r := (rest.takeWhile isPaSurC).length
        if 1 ≤ r then
          let l2 := rest.drop r
          match l2.drop (countWs l2) with
          | ',' :: _ => some (sub.take (1 + r))
          | _ => none
        else none
      else none
  | [] => none

/-- `re.search(r"(?:^|\s)([A-Z][A-Za-z'’-]+)\s*,", head)` (line 746):
the group matches at the start or right after a consumed whitespace
character. -/
def m2Capture (l : List Char) : Option (List Char) :=
  match m2Core l with
  | some g => some g
  | none => go (l.length + 1) 0
where
  go : Nat → Nat → Option (List Char)
    | 0, _ => none
    | fuel + 1, p =>
        if p < l.length then
          if (l.get? p).elim false isWsC then
            match m2Core (l.drop (p + 1)) with
            | some g => some g
            | none => go fuel (p + 1)
          else go fuel (p + 1)
        else none

/-- `re.match(r"\s*(?:[A-Z][A-Za-z'’-]+\s+)*(?P<s>[A-Z][A-Za-z'’-]+)\s*[,\.]", head)`
(line 750): greedy word iterations, the capture being the last word
before the delimiter. -/
def m3Words : Nat → List Char → Option (List Char)
  | 0, _ => none
  | fuel + 1, l =>
      match l with
      | c :: rest =>
          if isUpperC c then
            let r := (rest.takeWhile isPaSurC).length
            if 1 ≤ r then
              let word := (c :: rest).take (1 + r)
              let l2 := rest.drop r
              let w := countWs l2
              let cont := if 1 ≤ w then m3Words fuel (l2.drop w) else none
              match cont with
              | some g => some g
              | none =>
                  match l2.drop w with
                  | d :: _ => if d = ',' ∨ d = '.' then some word else none
                  | [] => none
            else none
          else none
      | [] => none

/-- The three-stage first-author heuristic (lines 739-752). -/
def parse_first_author (head : List Char) : Option (List Char) :=
  match searchCapture m1Head head with
  | some g => some g
  | none =>
      match m2Capture head with
      | some g => some g
      | none =>
          let w := countWs head
          m3Words ((head.drop w).length + 1) (head.drop w)

/-- `tail.split('.')`. -/
def splitDot (l : List Char) : List (List Char) :=
  go (l.length + 1) l []
where
  go : Nat → List Char → List Char → List (List Char)
    | 0, l, acc => [acc.reverse ++ l]
    | _ + 1, [], acc => [acc.reverse]
    | fuel + 1, '.' :: rest, acc => acc.reverse :: go fuel rest []
    | fuel + 1, c :: rest, acc => go fuel rest (c :: acc)

/-- The venue-marker rejection pattern of line 757 (`re.search` of a
`^`-anchored alternation, IGNORECASE). -/
def venue_marker_start (p : List Char) : Bool :=
  ciStarts "Proceedings".data p ||
  (ciStarts "In".data p &&
    (match p.drop 2 with
     | c :: _ => isWsC c
     | [] => false)) ||
  ciStarts "arXiv".data p || ciStarts "ACM".data p ||
  ciStarts "IEEE".data p || ciStarts "Springer".data p ||
  ciStarts "Journal".data p || ciStarts "Volume".data p ||
  ciStarts "Vol.".data p || ciStarts "No.".data p ||
  ciStarts "pp.".data p ||
  ciStarts "http://".data p || ciStarts "https://".data p

/-- The title-selection loop of lines 758-764. -/
def title_loop : List (List Char) → Option (List Char)
  | [] => none
  | p :: rest =>
      if p.length < 6 then title_loop rest
      else if venue_marker_start p then title_loop rest
      else some p

/-- The `parts` list of `_parse_reference` (line 756): the stripped,
non-empty period-separated pieces of the text after the year match. -/
def title_candidates (seg : String) : List String :=
  let seg_clean := stripLeadMarker (stripChars seg.data)
  let tl := match findYear seg_clean with
    | some q => seg_clean.drop (q.1 + q.2)
    | none => seg_clean
  ((((splitDot tl).map stripChars).filter fun p => p ≠ []).map String.mk)

/-- `_parse_reference` (lines 722-765). -/
def parse_reference (seg : String) : ParsedRef :=
  let seg_clean := stripLeadMarker (stripChars seg.data)
  let doi := (findDoi seg_clean).map String.mk
  let myear := findYear seg_clean
  let year : Option Int := myear.map fun q =>
    (digitsToNat ((seg_clean.drop q.1).take 4) : Int)
  let head := match myear with
    | some q => seg_clean.take q.1
    | none => seg_clean.take 120
  let first_author := (parse_first_author head).map String.mk
  let tl := match myear with
    | some q => seg_clean.drop (q.1 + q.2)
    | none => seg_clean
  let parts := ((splitDot tl).map stripChars).filter fun p => p ≠ []
  let title := (title_loop parts).map String.mk
  { raw := seg, doi := doi, year := year, title := title,
    firstAuthor := first_author }

/-! ### Catalog Reconciler — `normalize_doi`, `_normalize_title`,
`_tokenize_title`, `_guess_id_from_approaches`, `_map_ref_to_id`
(lines 638-643, 686-690, 817-820, 859-886, 889-940)

`difflib.SequenceMatcher(...).ratio()` (standard library) and the
`approaches` directory listing (file system) are parameters. -/

/-- Collapse any whitespace run to a single space (`re.sub(r"\s+", " ")`). -/
def collapseWsRuns (l : List Char) : List Char := go l.length l
where
  go : Nat → List Char → List Char
    | 0, l => l
    | _ + 1, [] => []
    | fuel + 1, c :: rest =>
        if isWsC c then ' ' :: go fuel (rest.dropWhile isWsC)
        else c :: go fuel rest

/-- `_normalize_title` (lines 686-690): lower-case, non-alphanumerics to
spaces, whitespace collapsed, stripped. -/
def normalize_title (s : String) : String :=
  let l1 := s.data.map lowerC
  let l2 := l1.map fun c =>
    if isLowerC c || isDigitC c || isWsC c then c else ' '
  String.mk (stripChars (collapseWsRuns l2))

/-- Python `str.split()` (split on whitespace runs, no empty parts). -/
def splitSpaces (l : List Char) : List (List Char) :=
  go (l.length + 1) l
where
  go : Nat → List Char → List (List Char)
    | 0, _ => []
    | _ + 1, [] => []
    | fuel + 1, c :: rest =>
        if isWsC c then go fuel rest
        else
          let w := (c :: rest).takeWhile fun d => !isWsC d
          w :: go fuel ((c :: rest).drop w.length)

/-- `_tokenize_title` (lines 817-820): significant words of the
normalized title (length at least 4). -/
def tokenize_title (s : String) : List String :=
  ((splitSpaces (normalize_title s).data).filter fun t => 4 ≤ t.length).map
    String.mk

/-- `re.sub(r"^https?://(dx\.)?doi\.org/", "", ·, re.IGNORECASE)`: strip
the URL prefix when the full prefix pattern matches, else keep the
string unchanged. -/
def stripDoiUrl (l : List Char) : List Char :=
  let afterScheme : Option (List Char) :=
    if ciStarts "https://".data l then some (l.drop 8)
    else if ciStarts "http://".data l then some (l.drop 7)
    else none
  match afterScheme with
  | some r =>
      if ciStarts "dx.".data r ∧ ciStarts "doi.org/".data (r.drop 3) then
        r.drop 11
      else if ciStarts "doi.org/".data r then r.drop 8
      else l
  | none => l

/-- `normalize_doi` (lines 638-643). -/
def normalize_doi (doi : String) : String :=
  if doi = "" then ""
  else String.mk (stripDoiUrl (stripChars doi.data))

/-- Case-sensitive literal prefix. -/
def litStarts : List Char → List Char → Bool
  | [], _ => true
  | _ :: _, [] => false
  | p :: ps, c :: cs => p = c && litStarts ps cs

/-- Python `t in cid` (substring containment). -/
def isSubstr (pat : List Char) : List Char → Bool
  | [] => litStarts pat []
  | c :: rest => litStarts pat (c :: rest) || isSubstr pat rest

/-- The catalog index built by `_build_catalog` (lines 823-856): DOI and
normalized-title maps, titles by id, year-bucketed tokenized titles, and
the id set.  Python dict lookups are association-list lookups (keys are
unique in a dict). -/
structure Catalog where
  by_doi : List (String × String)
  by_title : List (String × String)
  title_by_id : List (String × String)
  by_year_titles : List (Int × List (String × List String))
  ids : List String

/-- `_guess_id_from_approaches` (lines 859-886); `approaches` is the
directory listing. -/
def guess_id_from_approaches (approaches : List String) (ref : ParsedRef) :
    Option String :=
  let tit := ref.title.getD ""
  let tokens := ((splitSpaces (normalize_title tit).data).filter
    fun t => 4 ≤ t.length).take 6
  match ref.year, ref.firstAuthor with
  | some y, some fa =>
      if y = 0 ∨ fa = "" then none
      else
        let surname := (fa.data.map lowerC).filter fun c =>
          isLowerC c || isDigitC c
        let pfx := (toString y).data ++ '_' :: surname ++ ['_']
        let candidates := (approaches.filter fun f =>
          (String.mk (f.data.map lowerC)).endsWith ".pdf" &&
            litStarts pfx f.data).map fun f =>
          f.data.take (f.data.length - 4)
        match candidates with
        | [] => none
        | _ =>
            let best := candidates.foldl (fun acc cid =>
              let score := (tokens.filter fun t => isSubstr t cid).length
              if acc.2 < score then (some cid, score) else acc)
              ((none : Option (List Char)), 0)
            match best.1 with
            | some b => if 2 ≤ best.2 then some (String.mk b) else none
            | none => none
  | _, _ => none

/-- `_map_ref_to_id` (lines 889-940).  `ratio` stands for
`difflib.SequenceMatcher(a, b).ratio()`. -/
def map_ref_to_id (ratio : String → String → ℚ) (approaches : List String)
    (ref : ParsedRef) (catalog : Catalog) : Option String :=
  let doiBranch : Option String :=
    match ref.doi with
    | some d => if d ≠ "" then catalog.by_doi.lookup (normalize_doi d) else none
    | none => none
  match doiBranch with
  | some pid => some pid
  | none =>
      let titleBranch : Option String :=
        match ref.title with
        | some title =>
            if title ≠ "" then
              let norm := normalize_title title
              match catalog.by_title.lookup norm with
              | some pid => some pid
              | none =>
                  let toks_ref := (tokenize_title title).dedup
                  let candidates : List (String × List String) :=
                    match ref.year with
                    | some y =>
                        match catalog.by_year_titles.lookup y with
                        | some lst => lst
                        | none => catalog.title_by_id.map fun q =>
                            (q.1, tokenize_title q.2)
                    | none => catalog.title_by_id.map fun q =>
                        (q.1, tokenize_title q.2)
                  let bestJ := candidates.foldl (fun acc q =>
                    let s := q.2.dedup
                    if s = [] ∨ toks_ref = [] then acc
                    else
                      let inter := (s.filter fun t => toks_ref.contains t).length
                      let union := (s ++ toks_ref.filter
                        fun t => !s.contains t).length
                      let jac : ℚ :=
                        if union ≠ 0 then (inter : ℚ) / (union : ℚ) else 0
                      if 3 ≤ inter ∧ acc.2 < jac then (some q.1, jac) else acc)
                    ((none : Option String), (0 : ℚ))
                  match bestJ.1 with
                  | some bid =>
                      if (4 : ℚ) / 10 ≤ bestJ.2 then some bid
                      else
                        let bestR := catalog.title_by_id.foldl (fun acc q =>
                          let r := ratio norm (normalize_title q.2)
                          if acc.2 < r then (some q.1, r) else acc)
                          ((none : Option String), (0 : ℚ))
                        match bestR.1 with
                        | some rid =>
                            if (72 : ℚ) / 100 ≤ bestR.2 then some rid else none
                        | none => none
                  | none =>
                      let bestR := catalog.title_by_id.foldl (fun acc q =>
                        let r := ratio norm (normalize_title q.2)
                        if acc.2 < r then (some q.1, r) else acc)
                        ((none : Option String), (0 : ℚ))
                      match bestR.1 with
                      | some rid =>
                          if (72 : ℚ) / 100 ≤ bestR.2 then some rid else none
                      | none => none
            else none
        | none => none
      match titleBranch with
      | some pid => some pid
      | none => guess_id_from_approaches approaches ref

/-! ### Identifier validation — `ID_REGEX` / `validate_id_format`
(lines 122-140) -/

/-- `^(?P<year>\d{4})_(?P<surname>[a-z][a-z0-9]+)_(?P<slug>[a-z0-9][a-z0-9-]+)$`:
the greedy runs are forced maximal (neither class contains `_`, and the
slug must reach the end). -/
def id_regex_match (pid : String) : Option (Nat × String × String) :=
  match pid.data with
  | a :: b :: c :: d :: '_' :: rest =>
      if isDigitC a ∧ isDigitC b ∧ isDigitC c ∧ isDigitC d then
        match rest with
        | e :: rest2 =>
            if isLowerC e then
              let r := rest2.takeWhile fun x => isLowerC x || isDigitC x
              if 1 ≤ r.length then
                match rest2.drop r.length with
                | '_' :: f :: rest4 =>
                    if isLowerC f || isDigitC f then
                      let sl := rest4.takeWhile fun x =>
                        isLowerC x || isDigitC x || x = '-'
                      if 1 ≤ sl.length ∧ rest4.drop sl.length = [] then
                        some (digitsToNat [a, b, c, d], String.mk (e :: r),
                          String.mk (f :: sl))
                      else none
                    else none
                | _ => none
              else none
            else none
        | [] => none
      else none
  | _ => none

/-- A catalog entry as far as this core reads it: `year` holds the JSON
`year` field when that field is an `int` (otherwise `none`, covering a
missing or non-integer value), `citations` the length of the `citations`
field when it is a list. -/
structure Entry where
  id : String
  year : Option Int
  firstAuthor : Option String
  title : Option String
  doi : Option String
  citations : Option Int
  deriving Repr, DecidableEq

/-- `validate_id_format` (lines 125-140). -/
def validate_id_format (paper_id : String) (entry : Entry) : Bool × String :=
  match id_regex_match paper_id with
  | none => (false, "id_format_invalid")
  | some (id_year, surname, _slug) =>
      let yearBad : Bool :=
        match entry.year with
        | some jy => jy != (id_year : Int)
        | none => false
      if yearBad then
        (false, "year_mismatch(id=" ++ toString id_year ++ ", json=" ++
          (match entry.year with
           | some jy => toString jy
           | none => "None") ++ ")")
      else
        let fa := entry.firstAuthor.getD ""
        let fa_norm := ((fa.data.takeWhile fun c => c ≠ ' ').map lowerC).filter
          fun c => isLowerC c || isDigitC c
        if fa_norm ≠ [] ∧ surname.data ≠ fa_norm then
          (false, "surname_mismatch(id=" ++ surname ++ ", firstAuthor=" ++
            String.mk fa_norm ++ ")")
        else (true, "ok")

/-! ### Extraction Orchestrator — `_get_pdf_text_and_count` /
`ref_count_from_pdf` (lines 562-635)

The extraction backends (PyPDF2, pdfminer, pdftotext) are blocking I/O;
they are modelled by an environment `env` mapping the call arguments to
the ordered `(label, text-or-None)` pairs produced by the `add_text`
calls, and `os.path.abspath` by a parameter `abspath`.  A text that is
`None` or empty is not retained (`if text:`). -/

/-- A cached extraction result (the dict stored in `_EXTRACT_CACHE`). -/
structure ExtractEntry where
  text : Option String
  mode : String
  count : Nat
  reason : String
  deriving Repr, DecidableEq

/-- The cache key `(os.path.abspath(pdf_path), scan_mode, int(last_pages),
extractor)` (line 568). -/
abbrev CacheKey := String × String × Int × String

/-- `_EXTRACT_CACHE`, as explicit state. -/
abbrev Cache := List (CacheKey × ExtractEntry)

/-- The backend-environment type: argument tuple to ordered
`(label, text)` outputs. -/
abbrev ExtractEnv := String → Int → String → String → List (String × Option String)

/-- The best-scoring loop of lines 604-623: score each text's located
block count (`count + 1` when the heading was found), keep the first
strict improvement over the stored best count, and stop early once a
found block yields at least 10. -/
def choose_best : List (String × String) →
    String × Option String × Nat × String → String × Option String × Nat × String
  | [], best => best
  | (label, text) :: rest, (bl, bt, bc, br) =>
      let fb := find_references_block text
      let cr := count_entries_in_block fb.1
      let score := cr.1 + (if fb.2 then 1 else 0)
      let best' :=
        if bc < score then
          (label, some text, cr.1,
            (if fb.2 then "found " else "heuristic ") ++ cr.2)
        else (bl, bt, bc, br)
      if fb.2 ∧ 10 ≤ cr.1 then best' else choose_best rest best'

/-- `_get_pdf_text_and_count` (lines 565-626): cache hit returns the
stored tuple unchanged; otherwise the backends run, the best output is
chosen, and the entry is stored. -/
def get_pdf_text_and_count (env : ExtractEnv) (abspath : String → String)
    (pdf_path : String) (last_pages : Int) (scan_mode extractor : String)
    (cache : Cache) : (Option String × String × Nat × String) × Cache :=
  let key : CacheKey := (abspath pdf_path, scan_mode, last_pages, extractor)
  match cache.lookup key with
  | some c => ((c.text, c.mode, c.count, c.reason), cache)
  | none =>
      let texts := (env pdf_path last_pages scan_mode extractor).filterMap
        fun q =>
          match q.2 with
          | some t => if t ≠ "" then some (q.1, t) else none
          | none => none
      let r := choose_best texts ("none", none, 0, "no_result")
      ((r.2.1, r.1, r.2.2.1, r.2.2.2),
        (key, { text := r.2.1, mode := r.1, count := r.2.2.1,
                reason := r.2.2.2 }) :: cache)

/-- `ref_count_from_pdf` (lines 629-635); the `count` is always
non-negative, so the Python `count if count >= 0 else None` always
returns the count. -/
def ref_count_from_pdf (env : ExtractEnv) (abspath : String → String)
    (pdf_path : String) (last_pages : Int) (scan_mode extractor : String)
    (cache : Cache) : (Option Int × String) × Cache :=
  let r := get_pdf_text_and_count env abspath pdf_path last_pages scan_mode
    extractor cache
  let text := r.1.1
  let mode_used := r.1.2.1
  let count := r.1.2.2.1
  let reason := r.1.2.2.2
  let textTruthy : Bool :=
    match text with
    | some t => t ≠ ""
    | none => false
  let note :=
    if textTruthy ∧ 0 < count then
      "ok:" ++ mode_used ++ ": " ++ reason
    else "zero_count:" ++ mode_used ++ ": " ++ reason
  ((some (count : Int), note), r.2)

/-! ### Comparator/Reporter — `compare_counts` / `build_report`
(lines 993-1077)

`pdf_path_for_id` (file-system lookup) is modelled by its result
`pdf_found : Option (path, how)`, and the Crossref lookup by its result
`online_result`. -/

/-- The `Counts` dataclass (lines 109-114). -/
structure Counts where
  json : Option Int
  pdf : Option Int
  online : Option Int
  note : String
  deriving Repr, DecidableEq

/-- `compare_counts` (lines 993-1022). -/
def compare_counts (env : ExtractEnv) (abspath : String → String)
    (pdf_found : Option (String × String)) (online : Bool)
    (online_result : Option Int × String) (entry : Entry)
    (last_pages : Int) (scan_mode extractor : String) (cache : Cache) :
    Counts × Cache :=
  let json_count := entry.citations
  let v := validate_id_format entry.id entry
  let notes0 : List String := if v.1 then [] else ["id:" ++ v.2]
  let (pdf_count, notes1, cache') :=
    match pdf_found with
    | some (pdf_path, how) =>
        let r := ref_count_from_pdf env abspath pdf_path last_pages scan_mode
          extractor cache
        (r.1.1,
          notes0 ++ (if r.1.2 ≠ "" then ["pdf:" ++ how ++ ":" ++ r.1.2] else []),
          r.2)
    | none => ((none : Option Int), notes0 ++ ["pdf_missing"], cache)
  let (online_count, notes2) :=
    if online then (online_result.1, notes1 ++ ["online:" ++ online_result.2])
    else ((none : Option Int), notes1)
  ({ json := json_count, pdf := pdf_count, online := online_count,
     note := String.intercalate "; " notes2 }, cache')

/-- The per-entry classification of `build_report` (lines 1047-1069). -/
inductive Verdict
  | unresolved
  | mismatch
  | ok
  deriving Repr, DecidableEq

/-- The first available paper-side count, in the order
`[("pdf", pdf), ("online", online)]` (lines 1047-1052). -/
def best_available (c : Counts) : Option (String × Int) :=
  [("pdf", c.pdf), ("online", c.online)].findSome? fun q =>
    match q.2 with
    | some v => if 0 ≤ v then some (q.1, v) else none
    | none => none

/-- The verdict taken by the report loop for one entry. -/
def entry_verdict (c : Counts) : Verdict :=
  match best_available c with
  | none => .unresolved
  | some (_, bc) => if c.json ≠ some bc then .mismatch else .ok

/-- Python `f"{x}"` on an optional int. -/
def pyOptInt : Option Int → String
  | some v => toString v
  | none => "None"

/-- The report line appended for one entry (if any) and its verdict. -/
def report_step (c : Counts) (paper_id title : String) :
    Option String × Verdict :=
  match best_available c with
  | none =>
      (some ("- " ++ paper_id ++ " | " ++ title ++ "\n  json=" ++
        pyOptInt c.json ++ " pdf=" ++ pyOptInt c.pdf ++ " online=" ++
        pyOptInt c.online ++ " -> unresolved (" ++ c.note ++ ")"),
        .unresolved)
  | some (lbl, bc) =>
      if c.json ≠ some bc then
        (some ("- " ++ paper_id ++ " | " ++ title ++ "\n  json=" ++
          pyOptInt c.json ++ " vs " ++ lbl ++ "=" ++ toString bc ++
          " (note: " ++ c.note ++ ")"), .mismatch)
      else (none, .ok)

/-- The entry loop of `build_report` (lines 1036-1077), with the
accumulated report lines (reversed) and the four counters as state. -/
def report_go (env : ExtractEnv) (abspath : String → String)
    (pdfFinder : Entry → Option (String × String)) (online : Bool)
    (onlineLookup : Entry → Option Int × String) (last_pages : Int)
    (scan_mode extractor : String) :
    List Entry → Cache → List String → Nat → Nat → Nat → Nat →
      (List String × Nat × Nat × Nat × Nat) × Cache
  | [], cache, lines, processed, mism, miss, pf =>
      ((["Citation count mismatches (JSON vs PDF/Online)\n",
         "Only mismatches or unresolved entries are listed.\n", ""] ++
        lines.reverse ++
        ["", "Processed: " ++ toString processed,
         "Mismatches: " ++ toString mism,
         "Missing PDFs: " ++ toString miss,
         "Parse/Lookup failures: " ++ toString pf],
        processed, mism, miss, pf), cache)
  | e :: rest, cache, lines, processed, mism, miss, pf =>
      let r := compare_counts env abspath (pdfFinder e) online
        (onlineLookup e) e last_pages scan_mode extractor cache
      let st := report_step r.1 e.id (e.title.getD "?")
      let lines' := match st.1 with
        | some ln => ln :: lines
        | none => lines
      match st.2 with
      | .unresolved =>
          if isSubstr "pdf_missing".data r.1.note.data then
            report_go env abspath pdfFinder online onlineLookup last_pages
              scan_mode extractor rest r.2 lines' (processed + 1) mism
              (miss + 1) pf
          else
            report_go env abspath pdfFinder online onlineLookup last_pages
              scan_mode extractor rest r.2 lines' (processed + 1) mism miss
              (pf + 1)
      | .mismatch =>
          report_go env abspath pdfFinder online onlineLookup last_pages
            scan_mode extractor rest r.2 lines' (processed + 1) (mism + 1)
            miss pf
      | .ok =>
          report_go env abspath pdfFinder online onlineLookup last_pages
            scan_mode extractor rest r.2 lines' (processed + 1) mism miss pf

/-- `build_report` (lines 1025-1077): one pass over the entries, pure of
any exception; returns `(lines, processed, mismatches, missing_pdf,
parse_fail)` and the final cache. -/
def build_report (env : ExtractEnv) (abspath : String → String)
    (pdfFinder : Entry → Option (String × String)) (online : Bool)
    (onlineLookup : Entry → Option Int × String) (entries : List Entry)
    (last_pages : Int) (scan_mode extractor : String) (cache : Cache) :
    (List String × Nat × Nat × Nat × Nat) × Cache :=
  report_go env abspath pdfFinder online onlineLookup last_pages scan_mode
    extractor entries cache [] 0 0 0 0

/-! ## Shared concrete inputs -/

/-- The §8 scenario document. -/
def scenarioText : String :=
  "References\n[1] Smith, J. (2019). Foo. Proc. X, 2019.\n[2] Lee, K. (2020). Bar. J. Y, 2020.\nAppendix\n..."

/-- The block the Locator extracts from the scenario document. -/
def scenarioBlock : String := (find_references_block scenarioText).1

/-- A block with five contiguous, well-formed entries `[1]..[5]`. -/
def contiguousBlock : String :=
  "References\n[1] Garcia, M. Understanding tables in documents. Proc. of STI, 2019.\n[2] Horvat, P. Matching entities over tables. Proc. of STI, 2019.\n[3] Ivanov, K. Annotating columns with types. Proc. of STI, 2020.\n[4] Jansen, L. Linking cells to entities. Proc. of STI, 2020.\n[5] Keller, R. Surveying table interpretation. Proc. of STI, 2021."

/-! ## Claim C5 — Normalizer idempotence -/

/-- C5 (counterexample): the Text Normalizer is not idempotent.  On
`"a [1] b"` the first pass inserts a newline before the bracketed label;
the second pass inserts another one, because the `\s*` inside the
insertion pattern absorbs the newline just inserted while the
`(?<!\n)` lookbehind still sees the letter before it. -/
theorem claim_C5_counterexample :
    normalizer (normalizer "a [1] b") ≠ normalizer "a [1] b" := by decide

/-- C5 (amended): the Normalizer is idempotent only on its fixed points:
if normalizing `t` leaves `t` unchanged, a second run changes nothing.
On other already-normalized outputs a further pass can still insert
additional synthetic newlines (see the counterexample). -/
theorem claim_C5_amended (t : String) (h : normalizer t = t) :
    normalizer (normalizer t) = normalizer t := by rw [h]; exact h

/-- C5 (witness): `"hello"` is a Normalizer fixed point. -/
theorem claim_C5_witness :
    normalizer "hello" = "hello" ∧
      normalizer (normalizer "hello") = normalizer "hello" :=
  ⟨by decide, claim_C5_amended "hello" (by decide)⟩

/-! ## Claim C10 — identifier validation with absent metadata -/

/-- C10: a regex-valid identifier validates as `(True, "ok")` when the
entry's `year` is not an integer and its `firstAuthor` is missing or
empty: both cross-checks are silently skipped. -/
theorem claim_C10_validate (pid : String) (e : Entry) (yr : Nat)
    (sn sl : String)
    (hm : id_regex_match pid = some (yr, sn, sl))
    (hy : e.year = none)
    (hf : e.firstAuthor = none ∨ e.firstAuthor = some "") :
    validate_id_format pid e = (true, "ok") := by
  unfold validate_id_format
  rw [hm]
  rcases hf with hf | hf <;> simp [hy, hf]

/-- C10 (witness). -/
theorem claim_C10_witness :
    validate_id_format "2024_zhang_tablellama"
      { id := "2024_zhang_tablellama", year := none, firstAuthor := none,
        title := none, doi := none, citations := some 5 } = (true, "ok") :=
  claim_C10_validate _ _ 2024 "zhang" "tablellama" (by decide) rfl
    (Or.inl rfl)

/-! ## Claim C4 — DOI match wins unconditionally -/

/-- C4: when the reference's normalized DOI hits the catalog DOI index,
the Reconciler returns that identifier at once, for any title, any year,
any similarity oracle `ratio` and any directory listing: no weaker
signal is even consulted. -/
theorem claim_C4_doi_priority (ratio : String → String → ℚ)
    (approaches : List String) (ref : ParsedRef) (catalog : Catalog)
    (d pid : String)
    (hd : ref.doi = some d) (hne : d ≠ "")
    (hl : catalog.by_doi.lookup (normalize_doi d) = some pid) :
    map_ref_to_id ratio approaches ref catalog = some pid := by
  unfold map_ref_to_id
  rw [hd]
  simp [hne, hl]

/-- C4 (witness): the §8 scenario — entry `2020_lee_bar` with DOI
`10.1/xyz` is returned despite an unrelated title and an adversarial
similarity oracle that rates every pair 1. -/
theorem claim_C4_witness :
    map_ref_to_id (fun _ _ => 1) []
      { raw := "", doi := some "10.1/xyz", year := some 1999,
        title := some "Totally Unrelated Title", firstAuthor := some "Kim" }
      { by_doi := [("10.1/xyz", "2020_lee_bar")], by_title := [],
        title_by_id := [], by_year_titles := [], ids := [] } =
      some "2020_lee_bar" :=
  claim_C4_doi_priority _ _ _ _ "10.1/xyz" "2020_lee_bar" rfl (by decide)
    (by decide)

/-! ## Claim C9 — extraction cache -/

/-- C9: the extraction cache is populated at most once per key.  A call
whose key is already cached returns exactly the stored tuple and leaves
the cache untouched; consequently calling again right after any call
reproduces the first result and the same cache, without recomputing. -/
theorem claim_C9_cache (env : ExtractEnv) (abspath : String → String)
    (pdf_path : String) (last_pages : Int) (scan_mode extractor : String)
    (cache : Cache) :
    (∀ c, cache.lookup (abspath pdf_path, scan_mode, last_pages, extractor) =
        some c →
      get_pdf_text_and_count env abspath pdf_path last_pages scan_mode
        extractor cache = ((c.text, c.mode, c.count, c.reason), cache)) ∧
    get_pdf_text_and_count env abspath pdf_path last_pages scan_mode extractor
      (get_pdf_text_and_count env abspath pdf_path last_pages scan_mode
        extractor cache).2 =
      get_pdf_text_and_count env abspath pdf_path last_pages scan_mode
        extractor cache := by
  constructor
  · intro c hc
    simp [get_pdf_text_and_count, hc]
  · cases hl : cache.lookup (abspath pdf_path, scan_mode, last_pages, extractor) with
    | some c => simp [get_pdf_text_and_count, hl]
    | none => simp [get_pdf_text_and_count, hl, List.lookup]

/-- C9 (witness): a concrete first call caches, the hit returns it. -/
theorem claim_C9_witness :
    get_pdf_text_and_count (fun _ _ _ _ => [("pypdf-full", some "x")]) id
      "p.pdf" 8 "full" "auto"
      (get_pdf_text_and_count (fun _ _ _ _ => [("pypdf-full", some "x")]) id
        "p.pdf" 8 "full" "auto" []).2 =
    get_pdf_text_and_count (fun _ _ _ _ => [("pypdf-full", some "x")]) id
      "p.pdf" 8 "full" "auto" [] :=
  (claim_C9_cache (fun _ _ _ _ => [("pypdf-full", some "x")]) id "p.pdf" 8
    "full" "auto" []).2

/-! ## Claim C2 — extraction failure handling -/

/-- C2 (counterexample): an entry whose document exists but whose
backends all return empty text is classified `mismatch` (its declared
count 3 against the zero PDF count), not `unresolved`. -/
theorem claim_C2_counterexample :
    entry_verdict (compare_counts
      (fun _ _ _ _ => [("pypdf-full", some ""), ("pdfminer-full", none)]) id
      (some ("approaches/2020_lee_bar.pdf", "exact")) false (none, "")
      { id := "2020_lee_bar", year := some 2020, firstAuthor := some "Lee",
        title := some "Bar", doi := none, citations := some 3 }
      8 "full" "auto" []).1 = Verdict.mismatch := by decide

/-- Auxiliary for C2: the loop of `build_report` processes every entry
(no verdict or failure stops it). -/
theorem report_go_processed (env : ExtractEnv) (abspath : String → String)
    (pdfFinder : Entry → Option (String × String)) (online : Bool)
    (onlineLookup : Entry → Option Int × String) (last_pages : Int)
    (scan_mode extractor : String) (entries : List Entry) :
    ∀ (cache : Cache) (lines : List String) (p m mi pf : Nat),
      (report_go env abspath pdfFinder online onlineLookup last_pages
        scan_mode extractor entries cache lines p m mi pf).1.2.1 =
        p + entries.length := by
  induction entries with
  | nil => intro cache lines p m mi pf; simp [report_go]
  | cons e rest ih =>
      intro cache lines p m mi pf
      simp only [report_go]
      split
      · split
        · rw [ih, List.length_cons]; omega
        · rw [ih, List.length_cons]; omega
      · rw [ih, List.length_cons]; omega
      · rw [ih, List.length_cons]; omega

/-- C2 (amended): when the source document exists but every backend
returns empty or unusable (`None`) text, `ref_count_from_pdf` yields the
count `0` with the diagnostic note `zero_count:none: no_result`; the
Comparator records `pdf = 0` and classifies the entry as `mismatch`
whenever its declared count differs from 0 (silently as a match when it
equals 0) — not as `unresolved`; and the failure does not halt the
batch: `build_report` processes every entry. -/
theorem claim_C2_amended :
    (∀ (env : ExtractEnv) (abspath : String → String) (pdf_path how : String)
        (last_pages : Int) (scan_mode extractor : String) (cache : Cache)
        (online : Bool) (online_result : Option Int × String) (entry : Entry),
      (∀ q ∈ env pdf_path last_pages scan_mode extractor,
        q.2 = none ∨ q.2 = some "") →
      cache.lookup (abspath pdf_path, scan_mode, last_pages, extractor) =
        none →
      (ref_count_from_pdf env abspath pdf_path last_pages scan_mode extractor
        cache).1 = (some 0, "zero_count:none: no_result") ∧
      (compare_counts env abspath (some (pdf_path, how)) online online_result
        entry last_pages scan_mode extractor cache).1.pdf = some 0 ∧
      entry_verdict (compare_counts env abspath (some (pdf_path, how)) online
        online_result entry last_pages scan_mode extractor cache).1 =
        (if entry.citations = some 0 then Verdict.ok else Verdict.mismatch)) ∧
    (∀ (env : ExtractEnv) (abspath : String → String)
        (pdfFinder : Entry → Option (String × String)) (online : Bool)
        (onlineLookup : Entry → Option Int × String) (entries : List Entry)
        (last_pages : Int) (scan_mode extractor : String) (cache : Cache),
      (build_report env abspath pdfFinder online onlineLookup entries
        last_pages scan_mode extractor cache).1.2.1 = entries.length) := by
  constructor
  · intro env abspath pdf_path how last_pages scan_mode extractor cache
      online online_result entry hfalsy hmiss
    have htexts : (env pdf_path last_pages scan_mode extractor).filterMap
        (fun q => match q.2 with
          | some t => if t ≠ "" then some (q.1, t) else none
          | none => none) = ([] : List (String × String)) := by
      rw [List.filterMap_eq_nil]
      intro q hq
      rcases hfalsy q hq with h | h <;> simp [h]
    have hget : get_pdf_text_and_count env abspath pdf_path last_pages
        scan_mode extractor cache =
        ((none, "none", 0, "no_result"),
          ((abspath pdf_path, scan_mode, last_pages, extractor),
            { text := none, mode := "none", count := 0,
              reason := "no_result" }) :: cache) := by
      simp only [get_pdf_text_and_count]
      rw [hmiss, htexts]
      rfl
    have href : ref_count_from_pdf env abspath pdf_path last_pages scan_mode
        extractor cache =
        ((some 0, "zero_count:none: no_result"),
          ((abspath pdf_path, scan_mode, last_pages, extractor),
            { text := none, mode := "none", count := 0,
              reason := "no_result" }) :: cache) := by
      simp [ref_count_from_pdf, hget]
    refine ⟨by rw [href], ?_, ?_⟩
    · simp [compare_counts, href]
    · simp only [compare_counts, href]
      by_cases hc : entry.citations = some 0 <;>
        simp [entry_verdict, best_available, hc]
  · intro env abspath pdfFinder online onlineLookup entries last_pages
      scan_mode extractor cache
    simpa [build_report] using report_go_processed env abspath pdfFinder
      online onlineLookup last_pages scan_mode extractor entries cache []
      0 0 0 0

/-- C2 (witness): the amended statement at the concrete failing entry. -/
theorem claim_C2_witness :
    (ref_count_from_pdf
      (fun _ _ _ _ => [("pypdf-full", some ""), ("pdfminer-full", none)]) id
      "approaches/2020_lee_bar.pdf" 8 "full" "auto" []).1 =
      (some 0, "zero_count:none: no_result") ∧
    (compare_counts
      (fun _ _ _ _ => [("pypdf-full", some ""), ("pdfminer-full", none)]) id
      (some ("approaches/2020_lee_bar.pdf", "exact")) false (none, "")
      { id := "2020_lee_bar", year := some 2020, firstAuthor := some "Lee",
        title := some "Bar", doi := none, citations := some 3 }
      8 "full" "auto" []).1.pdf = some 0 ∧
    entry_verdict (compare_counts
      (fun _ _ _ _ => [("pypdf-full", some ""), ("pdfminer-full", none)]) id
      (some ("approaches/2020_lee_bar.pdf", "exact")) false (none, "")
      { id := "2020_lee_bar", year := some 2020, firstAuthor := some "Lee",
        title := some "Bar", doi := none, citations := some 3 }
      8 "full" "auto" []).1 =
      (if (some 3 : Option Int) = some 0 then Verdict.ok
       else Verdict.mismatch) :=
  claim_C2_amended.1 _ id "approaches/2020_lee_bar.pdf" "exact" 8 "full"
    "auto" [] false (none, "")
    { id := "2020_lee_bar", year := some 2020, firstAuthor := some "Lee",
      title := some "Bar", doi := none, citations := some 3 }
    (by decide) rfl

/-! ## Claim C3 — Segmenter output filter -/

/-- Auxiliary for C3: every chunk of the boundary fallback has at least
40 characters. -/
theorem boundary_chunks_len (lines : List (List Char)) :
    ∀ c ∈ boundary_chunks lines, 40 ≤ c.length := by
  have : ∀ (ls : List (List Char)) (cur : List (List Char)),
      ∀ c ∈ boundary_chunks.go ls cur, 40 ≤ c.length := by
    intro ls
    induction ls with
    | nil =>
        intro cur c hc
        simp only [boundary_chunks.go] at hc
        split at hc
        · simp at hc
        · split at hc <;> simp_all
    | cons ln rest ih =>
        intro cur c hc
        simp only [boundary_chunks.go] at hc
        split at hc
        · rcases List.mem_append.mp hc with h | h
          · split at h <;> simp_all
          · exact ih _ _ h
        · exact ih _ _ hc
  exact this lines []

/-- C3 (amended): every segment returned by the Reference Segmenter —
from the anchor strategy or the boundary fallback — is at least 40
characters long.  The year-token/marker acceptance filter, however, is
not applied by `_extract_reference_segments` (it is used only by the
counter's segment validation), so returned segments need not contain a
year token. -/
theorem claim_C3_amended (text : String) (s : String)
    (hs : s ∈ extract_reference_segments text) : 40 ≤ s.length := by
  simp only [extract_reference_segments] at hs
  split at hs
  · obtain ⟨t, ht, rfl⟩ := List.mem_map.mp hs
    have := List.of_mem_filter ht
    simpa using this
  · obtain ⟨t, ht, rfl⟩ := List.mem_map.mp hs
    simpa using boundary_chunks_len _ t ht

/-- C3 (counterexample): a returned fallback segment with no year token
at all (and hence failing `_looks_like_reference`); the claim's
year-token guarantee is false. -/
theorem claim_C3_counterexample :
    extract_reference_segments
        "References\n[1] aaaaaaaa bbbbbbbb cccccccc dddddddd eeee" =
      ["References [1] aaaaaaaa bbbbbbbb cccccccc dddddddd eeee"] ∧
    searchB yearHead
      "References [1] aaaaaaaa bbbbbbbb cccccccc dddddddd eeee".data =
      false ∧
    looks_like_reference
      "References [1] aaaaaaaa bbbbbbbb cccccccc dddddddd eeee".data =
      false := by
  refine ⟨?_, ?_, ?_⟩ <;> decide

/-- C3 (witness): the amended bound at the concrete returned segment. -/
theorem claim_C3_witness :
    40 ≤ ("References [1] aaaaaaaa bbbbbbbb cccccccc dddddddd eeee" :
      String).length :=
  claim_C3_amended
    "References\n[1] aaaaaaaa bbbbbbbb cccccccc dddddddd eeee"
    "References [1] aaaaaaaa bbbbbbbb cccccccc dddddddd eeee" (by decide)

/-! ## Claim C8 — parser title selection -/

/-- Auxiliary for C8: the title loop returns the first candidate of
length at least 6 not starting with a venue marker. -/
theorem title_loop_find (parts : List (List Char)) :
    (title_loop parts).map String.mk =
      (parts.map String.mk).find? fun p =>
        decide (6 ≤ p.length) && !venue_marker_start p.data := by
  induction parts with
  | nil => rfl
  | cons p rest ih =>
      rw [List.map_cons, List.find?_cons]
      by_cases h6 : p.length < 6
      · have h1 : decide (6 ≤ p.length) = false :=
          decide_eq_false (by omega)
        simp [title_loop, if_pos h6, h1, ih]
      · by_cases hv : venue_marker_start p = true
        · simp [title_loop, if_neg h6, hv, ih]
        · have h1 : decide (6 ≤ p.length) = true :=
            decide_eq_true (Nat.le_of_not_lt h6)
          have hv' : venue_marker_start p = false := by
            simpa using hv
          simp [title_loop, if_neg h6, h1, hv']

/-- C8 (amended): the parser's title is the FIRST period-separated part
after the year that has length at least 6 and does not begin with a
venue marker; the title is absent only when no part qualifies.  A
rejected first candidate does not abort the search. -/
theorem claim_C8_amended (seg : String) :
    (parse_reference seg).title =
      (title_candidates seg).find? fun p =>
        decide (6 ≤ p.length) && !venue_marker_start p.data := by
  unfold parse_reference title_candidates
  exact title_loop_find _

/-- C8 (counterexample): the first candidate `Proceedings of X` is
rejected by the venue filter, yet the parsed reference still carries the
next acceptable part as its title — the claim's "no title" is false. -/
theorem claim_C8_counterexample :
    (parse_reference
        "[1] Smith, J. 2019. Proceedings of X. A nice title here. pp. 4.").title =
      some "A nice title here" ∧
    title_candidates
        "[1] Smith, J. 2019. Proceedings of X. A nice title here. pp. 4." =
      ["Proceedings of X", "A nice title here", "pp", "4"] ∧
    venue_marker_start "Proceedings of X".data = true := by
  refine ⟨?_, ?_, ?_⟩ <;> decide

/-- C8 (witness): the amended equation evaluated at the counterexample
segment. -/
theorem claim_C8_witness :
    (parse_reference
        "[1] Smith, J. 2019. Proceedings of X. A nice title here. pp. 4.").title =
      (title_candidates
        "[1] Smith, J. 2019. Proceedings of X. A nice title here. pp. 4.").find?
        (fun p => decide (6 ≤ p.length) && !venue_marker_start p.data) :=
  claim_C8_amended
    "[1] Smith, J. 2019. Proceedings of X. A nice title here. pp. 4."

/-! ## Claim C7 — contiguity ratio -/

theorem foldl_max_mem (l : List ℤ) : ∀ a : ℤ, l.foldl max a ∈ a :: l := by
  induction l with
  | nil => intro a; simp
  | cons b t ih =>
      intro a
      rcases List.mem_cons.mp (ih (max a b)) with h | h
      · rcases max_choice a b with hm | hm
        · exact List.mem_cons.mpr (Or.inl (by rw [List.foldl_cons, h, hm]))
        · exact List.mem_cons.mpr (Or.inr (List.mem_cons.mpr
            (Or.inl (by rw [List.foldl_cons, h, hm]))))
      · exact List.mem_cons.mpr (Or.inr (List.mem_cons.mpr (Or.inr
          (by rw [List.foldl_cons]; exact h))))

theorem foldl_max_ub (l : List ℤ) :
    ∀ a : ℤ, a ≤ l.foldl max a ∧ ∀ x ∈ l, x ≤ l.foldl max a := by
  induction l with
  | nil => intro a; simp
  | cons b t ih =>
      intro a
      obtain ⟨h1, h2⟩ := ih (max a b)
      rw [List.foldl_cons]
      refine ⟨le_trans (le_max_left a b) h1, ?_⟩
      intro x hx
      rcases List.mem_cons.mp hx with rfl | hx
      · exact le_trans (le_max_right a x) h1
      · exact h2 x hx

theorem foldl_min_mem (l : List ℤ) : ∀ a : ℤ, l.foldl min a ∈ a :: l := by
  induction l with
  | nil => intro a; simp
  | cons b t ih =>
      intro a
      rcases List.mem_cons.mp (ih (min a b)) with h | h
      · rcases min_choice a b with hm | hm
        · exact List.mem_cons.mpr (Or.inl (by rw [List.foldl_cons, h, hm]))
        · exact List.mem_cons.mpr (Or.inr (List.mem_cons.mpr
            (Or.inl (by rw [List.foldl_cons, h, hm]))))
      · exact List.mem_cons.mpr (Or.inr (List.mem_cons.mpr (Or.inr
          (by rw [List.foldl_cons]; exact h))))

theorem foldl_min_lb (l : List ℤ) :
    ∀ a : ℤ, l.foldl min a ≤ a ∧ ∀ x ∈ l, l.foldl min a ≤ x := by
  induction l with
  | nil => intro a; simp
  | cons b t ih =>
      intro a
      obtain ⟨h1, h2⟩ := ih (min a b)
      rw [List.foldl_cons]
      refine ⟨le_trans h1 (min_le_left a b), ?_⟩
      intro x hx
      rcases List.mem_cons.mp hx with rfl | hx
      · exact le_trans h1 (min_le_right a x)
      · exact h2 x hx

theorem contig_of_bounds (nums : List ℤ) :
    0 ≤ contig_of nums ∧ contig_of nums ≤ 1 := by
  match nums with
  | [] => simp [contig_of]
  | x :: rest =>
      simp only [contig_of]
      set mx := rest.foldl max x with hmx
      set mn := rest.foldl min x with hmn
      have hub := foldl_max_ub rest x
      have hlb := foldl_min_lb rest x
      have hmnmx : mn ≤ mx := le_trans hlb.1 hub.1
      have hexp : (0 : ℤ) < mx - mn + 1 := by omega
      rw [if_pos hexp, Rat.divInt_eq_div, Int.cast_natCast]
      have hsub : (x :: rest).toFinset ⊆ Finset.Icc mn mx := by
        intro y hy
        rw [List.mem_toFinset] at hy
        rcases List.mem_cons.mp hy with rfl | hy
        · exact Finset.mem_Icc.mpr ⟨hlb.1, hub.1⟩
        · exact Finset.mem_Icc.mpr ⟨hlb.2 y hy, hub.2 y hy⟩
      have hcard : (x :: rest).dedup.length ≤ (mx - mn + 1).toNat := by
        have h1 := Finset.card_le_card hsub
        rw [List.card_toFinset, Int.card_Icc] at h1
        have h2 : mx + 1 - mn = mx - mn + 1 := by ring
        rwa [h2] at h1
      have hexpQ : (0 : ℚ) < ((mx - mn + 1 : ℤ) : ℚ) := by exact_mod_cast hexp
      constructor
      · positivity
      · rw [div_le_one hexpQ]
        calc ((x :: rest).dedup.length : ℚ) ≤ ((mx - mn + 1).toNat : ℚ) := by
              exact_mod_cast hcard
          _ = ((mx - mn + 1 : ℤ) : ℚ) := by
              have h2 : ((mx - mn + 1).toNat : ℤ) = mx - mn + 1 :=
                Int.toNat_of_nonneg (by omega)
              exact_mod_cast h2

theorem contig_of_eq_one_iff (nums : List ℤ) :
    contig_of nums = 1 ↔
      ∃ a b : ℤ, a ≤ b ∧ nums.toFinset = Finset.Icc a b := by
  match nums with
  | [] =>
      constructor
      · intro h; simp [contig_of] at h
      · rintro ⟨a, b, hab, hIcc⟩
        exfalso
        have ha : a ∈ Finset.Icc a b := Finset.mem_Icc.mpr ⟨le_refl a, hab⟩
        rw [← hIcc] at ha
        simp at ha
  | x :: rest =>
      simp only [contig_of]
      set mx := rest.foldl max x with hmx
      set mn := rest.foldl min x with hmn
      have hub := foldl_max_ub rest x
      have hlb := foldl_min_lb rest x
      have hmxmem : mx ∈ x :: rest := foldl_max_mem rest x
      have hmnmem : mn ∈ x :: rest := foldl_min_mem rest x
      have hmnmx : mn ≤ mx := le_trans hlb.1 hub.1
      have hexp : (0 : ℤ) < mx - mn + 1 := by omega
      rw [if_pos hexp, Rat.divInt_eq_div, Int.cast_natCast]
      have hsub : (x :: rest).toFinset ⊆ Finset.Icc mn mx := by
        intro y hy
        rw [List.mem_toFinset] at hy
        rcases List.mem_cons.mp hy with rfl | hy
        · exact Finset.mem_Icc.mpr ⟨hlb.1, hub.1⟩
        · exact Finset.mem_Icc.mpr ⟨hlb.2 y hy, hub.2 y hy⟩
      have hexpQ : (0 : ℚ) < ((mx - mn + 1 : ℤ) : ℚ) := by exact_mod_cast hexp
      have hIccCard : (Finset.Icc mn mx).card = (mx - mn + 1).toNat := by
        rw [Int.card_Icc]
        congr 1
        omega
      constructor
      · intro h
        rw [div_eq_one_iff_eq (ne_of_gt hexpQ)] at h
        have hN : (x :: rest).dedup.length = (mx - mn + 1).toNat := by
          have h2 : ((mx - mn + 1).toNat : ℤ) = mx - mn + 1 :=
            Int.toNat_of_nonneg (by omega)
          have h3 : ((x :: rest).dedup.length : ℚ) =
              (((mx - mn + 1).toNat : ℕ) : ℚ) := by
            rw [h]
            exact_mod_cast h2.symm
          exact_mod_cast h3
        refine ⟨mn, mx, hmnmx, ?_⟩
        apply Finset.eq_of_subset_of_card_le hsub
        rw [hIccCard, ← hN, ← List.card_toFinset]
      · rintro ⟨a, b, hab, hIcc⟩
        have hax : a = mn := by
          have h1 : mn ∈ Finset.Icc a b := by
            rw [← hIcc, List.mem_toFinset]; exact hmnmem
          have h2 : a ∈ (x :: rest).toFinset := by
            rw [hIcc]; exact Finset.mem_Icc.mpr ⟨le_refl a, hab⟩
          rw [List.mem_toFinset] at h2
          have h3 := Finset.mem_Icc.mp h1
          rcases List.mem_cons.mp h2 with rfl | h2
          · omega
          · have := hlb.2 a h2
            omega
        have hbx : b = mx := by
          have h1 : mx ∈ Finset.Icc a b := by
            rw [← hIcc, List.mem_toFinset]; exact hmxmem
          have h2 : b ∈ (x :: rest).toFinset := by
            rw [hIcc]; exact Finset.mem_Icc.mpr ⟨hab, le_refl b⟩
          rw [List.mem_toFinset] at h2
          have h3 := Finset.mem_Icc.mp h1
          rcases List.mem_cons.mp h2 with rfl | h2
          · omega
          · have := hub.2 b h2
            omega
        subst hax
        subst hbx
        have hN : (x :: rest).dedup.length = (mx - mn + 1).toNat := by
          rw [← List.card_toFinset, hIcc, hIccCard]
        rw [hN]
        rw [div_eq_one_iff_eq (ne_of_gt hexpQ)]
        have h2 : ((mx - mn + 1).toNat : ℤ) = mx - mn + 1 :=
          Int.toNat_of_nonneg (by omega)
        exact_mod_cast h2

/-- C7: the contiguity ratio of the Multi-Signal Counter lies in
`[0, 1]`, and equals 1 exactly when the observed labels form an unbroken
integer run (their set is an integer interval). -/
theorem claim_C7_contig (nums : List ℤ) :
    (0 ≤ contig_of nums ∧ contig_of nums ≤ 1) ∧
    (contig_of nums = 1 ↔
      ∃ a b : ℤ, a ≤ b ∧ nums.toFinset = Finset.Icc a b) :=
  ⟨contig_of_bounds nums, contig_of_eq_one_iff nums⟩

/-! ## Claim C1 — counting a contiguous `[1]..[n]` block -/

/-- The selection policy with `seg_count = c_labels_unique = n ≥ 5` and
perfect segment contiguity always lands in the `segmented` branch:
the branch-1 guard holds via `contig ≥ 0.5`, and the label override
needs `n < int(0.7·n)`, which is impossible. -/
theorem select_count_segmented {n : Nat} (h5 : 5 ≤ n)
    (c_sq c_dot c_bullet c_paras c_author_start c_author_fname_start
      c_corp_year c_dois_unique c_author_clusters c_by_boundaries
      c_year_lead : Nat) (contigAll : ℚ) :
    select_count n c_sq c_dot c_bullet n c_paras c_author_start
      c_author_fname_start c_corp_year c_dois_unique c_author_clusters
      c_by_boundaries c_year_lead 1 contigAll = ("segmented", n) := by
  have hcond : 5 ≤ n ∧ ((1 : ℚ) / 2 ≤ 1 ∨ 0 < c_sq) :=
    ⟨h5, Or.inl (by norm_num)⟩
  have hover : ¬(5 ≤ n ∧ n < 7 * n / 10 ∧ (6 : ℚ) / 10 ≤ contigAll) := by
    rintro ⟨-, hlt, -⟩
    have hdiv : 7 * n / 10 < n := by
      rw [Nat.div_lt_iff_lt_mul (by norm_num)]
      omega
    omega
  simp only [select_count]
  rw [if_pos hcond, if_neg hover]

/-- Positivity filter is the identity on the labels `1..n`. -/
theorem filter_pos_range' (n : Nat) :
    ((List.range' 1 n).map (fun k : Nat => (k : ℤ))).filter (fun z => decide (0 < z)) =
      (List.range' 1 n).map (fun k : Nat => (k : ℤ)) := by
  rw [List.filter_eq_self]
  intro z hz
  obtain ⟨k, hk, rfl⟩ := List.mem_map.mp hz
  rw [List.mem_range'_1] at hk
  simp only [decide_eq_true_eq]
  omega

/-- The labels `1..n` are a perfectly contiguous run. -/
theorem contig_range' (n : Nat) (hn : 1 ≤ n) :
    contig_of ((List.range' 1 n).map (fun k : Nat => (k : ℤ))) = 1 := by
  rw [contig_of_eq_one_iff]
  refine ⟨1, n, by exact_mod_cast hn, ?_⟩
  ext z
  simp only [List.mem_toFinset, List.mem_map, Finset.mem_Icc]
  constructor
  · rintro ⟨k, hk, rfl⟩
    rw [List.mem_range'_1] at hk
    omega
  · intro hz
    refine ⟨z.toNat, ?_, ?_⟩
    · rw [List.mem_range'_1]
      omega
    · omega

/-- C1 (amended): (i) for every block whose validated anchor segments
carry exactly the labels `1..n` in order with `n ≥ 5` and whose bracket
numerals are exactly `1..n`, the Multi-Signal Counter returns exactly
`n` via the `segmented` policy branch; (ii) on the §8 scenario block
(`n = 2`) the counter still returns count 2, but — since entry `[2]` is
only 36 characters long, failing the 40-character segment filter — via
the `square` branch, not `segmented`/`labels_unique_contig`. -/
theorem claim_C1_amended :
    (∀ (block : String) (n : Nat), 5 ≤ n →
      (valid_segments block.data).map Seg.num =
        (List.range' 1 n).map (fun k : Nat => (k : ℤ)) →
      labels_unique_list block.data = List.range' 1 n →
      (count_entries_in_block block).1 = n ∧
      ∃ r, (count_entries_in_block block).2 = "pattern=segmented" ++ r) ∧
    (count_entries_in_block scenarioBlock).1 = 2 := by
  constructor
  · intro block n h5 hsegs hlab
    have hlen : (valid_segments block.data).length = n := by
      have h := congrArg List.length hsegs
      simpa using h
    have hfilter : ((valid_segments block.data).map Seg.num).filter
        (fun z => decide (0 < z)) = (List.range' 1 n).map (fun k : Nat => (k : ℤ)) := by
      rw [hsegs]
      exact filter_pos_range' n
    have hcontig : contig_of (((valid_segments block.data).map Seg.num).filter
        (fun z => decide (0 < z))) = 1 := by
      rw [hfilter]
      exact contig_range' n (by omega)
    constructor
    · simp only [count_entries_in_block]
      rw [hcontig, hlen, hlab, List.length_range',
        select_count_segmented h5]
    · simp only [count_entries_in_block]
      rw [hcontig, hlen, hlab, List.length_range',
        select_count_segmented h5]
      exact ⟨_, rfl⟩
  · rfl

set_option maxRecDepth 8000 in
/-- C1 (counterexample): the §8 scenario block gets count 2 via the
`square` detector — entry `[2]` (36 characters) fails the 40-character
segment filter, so only one validated segment exists and neither the
`segmented` nor the `labels_unique_contig` branch is taken. -/
theorem claim_C1_counterexample :
    count_entries_in_block scenarioBlock =
      (2, "pattern=square counts=\x7bsegmented:1, square:2, numbered:0, bullet:0, labels_unique:2, paragraph:0, author_start:0, author_fname_start:0, corp_year:0, dois_unique:0, author_clusters:0, boundaries:0, year_lead:2\x7d contig=1.00 contig_all=1.00") := by
  decide

set_option maxRecDepth 20000 in
/-- C1 (witness): the amended statement applied to a concrete contiguous
five-entry block. -/
theorem claim_C1_witness :
    (count_entries_in_block contiguousBlock).1 = 5 ∧
    ∃ r, (count_entries_in_block contiguousBlock).2 =
      "pattern=segmented" ++ r :=
  claim_C1_amended.1 contiguousBlock 5 (by norm_num) (by decide) (by decide)

/-! ## Claim C6 — the Reference Block Locator -/

theorem mem_heading_occ (s : List Char) (i : Nat) :
    (i ∈ headingsPats.flatMap fun h =>
      (List.range s.length).filter fun j => patAt s j h) ↔
    i < s.length ∧ heading_at s i = true := by
  simp only [List.mem_flatMap, List.mem_filter, List.mem_range, heading_at,
    List.any_eq_true]
  tauto

theorem head_filter_range' (p : Nat → Bool) :
    ∀ (n s : Nat),
      ((((List.range' s n).filter p).head? = none) ↔
        ∀ i, s ≤ i → i < s + n → p i = false) ∧
      (∀ i, (((List.range' s n).filter p).head? = some i) →
        s ≤ i ∧ i < s + n ∧ p i = true ∧ ∀ j, s ≤ j → j < i → p j = false) := by
  intro n
  induction n with
  | zero =>
      intro s
      refine ⟨⟨fun _ i h1 h2 => absurd h2 (by omega), fun _ => rfl⟩, ?_⟩
      intro i h
      simp [List.range'] at h
  | succ m ih =>
      intro s
      have hr : List.range' s (m + 1) = s :: List.range' (s + 1) m := rfl
      rw [hr]
      by_cases hp : p s
      · have hfil : (s :: List.range' (s + 1) m).filter p
            = s :: (List.range' (s + 1) m).filter p := by
          simp [List.filter_cons, hp]
        rw [hfil]
        constructor
        · constructor
          · intro h; exact absurd h (by simp)
          · intro h; exact absurd (h s (le_refl s) (by omega)) (by simp [hp])
        · intro i h
          simp only [List.head?_cons, Option.some.injEq] at h
          subst h
          refine ⟨le_refl s, by omega, hp, ?_⟩
          intro j h1 h2
          exact absurd h2 (by omega)
      · have hfil : (s :: List.range' (s + 1) m).filter p
            = (List.range' (s + 1) m).filter p := by
          simp [List.filter_cons, hp]
        rw [hfil]
        obtain ⟨ihn, ihs⟩ := ih (s + 1)
        constructor
        · rw [ihn]
          constructor
          · intro h i h1 h2
            by_cases hi : i = s
            · subst hi; exact Bool.eq_false_iff.mpr hp
            · exact h i (by omega) (by omega)
          · intro h i h1 h2
            exact h i (by omega) (by omega)
        · intro i h
          obtain ⟨h1, h2, h3, h4⟩ := ihs i h
          refine ⟨by omega, by omega, h3, ?_⟩
          intro j hj1 hj2
          by_cases hjs : j = s
          · subst hjs; exact Bool.eq_false_iff.mpr hp
          · exact h4 j (by omega) hj2

theorem head_filter_range (p : Nat → Bool) (n : Nat) :
    ((((List.range n).filter p).head? = none) ↔
      ∀ i, i < n → p i = false) ∧
    (∀ i, (((List.range n).filter p).head? = some i) →
      i < n ∧ p i = true ∧ ∀ j, j < i → p j = false) := by
  obtain ⟨h1, h2⟩ := head_filter_range' p n 0
  rw [List.range_eq_range']
  constructor
  · rw [h1]
    constructor
    · intro hh i hi; exact hh i (Nat.zero_le i) (by omega)
    · intro hh i _ hi; exact hh i (by omega)
  · intro i hi
    obtain ⟨-, hb, hc, hd⟩ := h2 i hi
    exact ⟨by omega, hc, fun j hj => hd j (Nat.zero_le j) hj⟩

theorem foldl_tailStep_le (blk : List Char) :
    ∀ (ts : List (List String)) (a : Nat),
      ts.foldl (tailStep blk) a ≤ a ∧
      ∀ t ∈ ts, ∀ i,
        (((List.range blk.length).filter fun j => patAt blk j t).head? = some i) →
        ts.foldl (tailStep blk) a ≤ i := by
  intro ts
  induction ts with
  | nil =>
      intro a
      exact ⟨le_refl a, fun t ht => absurd ht (List.not_mem_nil t)⟩
  | cons t rest ih =>
      intro a
      rw [List.foldl_cons]
      rcases hft : ((List.range blk.length).filter fun j => patAt blk j t).head?
        with _ | i
      · have hstep : tailStep blk a t = a := by simp [tailStep, hft]
        rw [hstep]
        obtain ⟨h1, h2⟩ := ih a
        refine ⟨h1, ?_⟩
        intro t' ht' i hfi
        rcases List.mem_cons.mp ht' with rfl | ht'
        · rw [hfi] at hft; cases hft
        · exact h2 t' ht' i hfi
      · have hstep : tailStep blk a t = min a i := by simp [tailStep, hft]
        rw [hstep]
        obtain ⟨h1, h2⟩ := ih (min a i)
        refine ⟨le_trans h1 (min_le_left a i), ?_⟩
        intro t' ht' j hfj
        rcases List.mem_cons.mp ht' with rfl | ht'
        · rw [hfj] at hft
          injection hft with hij
          subst hij
          exact le_trans h1 (min_le_right a j)
        · exact h2 t' ht' j hfj

theorem foldl_tailStep_mem (blk : List Char) :
    ∀ (ts : List (List String)) (a : Nat),
      ts.foldl (tailStep blk) a = a ∨
      ∃ t ∈ ts,
        (((List.range blk.length).filter fun j => patAt blk j t).head? =
          some (ts.foldl (tailStep blk) a)) := by
  intro ts
  induction ts with
  | nil => intro a; exact Or.inl rfl
  | cons t rest ih =>
      intro a
      rw [List.foldl_cons]
      rcases hft : ((List.range blk.length).filter fun j => patAt blk j t).head?
        with _ | i
      · have hstep : tailStep blk a t = a := by simp [tailStep, hft]
        rw [hstep]
        rcases ih a with h | ⟨t', ht', hf⟩
        · exact Or.inl h
        · exact Or.inr ⟨t', List.mem_cons_of_mem t ht', hf⟩
      · have hstep : tailStep blk a t = min a i := by simp [tailStep, hft]
        rw [hstep]
        rcases ih (min a i) with h | ⟨t', ht', hf⟩
        · rw [h]
          rcases min_choice a i with hm | hm
          · exact Or.inl hm
          · exact Or.inr ⟨t, List.mem_cons_self t rest, by rw [hm]; exact hft⟩
        · exact Or.inr ⟨t', List.mem_cons_of_mem t ht', hf⟩

theorem foldl_tailStep_none (blk : List Char) :
    ∀ (ts : List (List String)) (a : Nat),
      (∀ t ∈ ts,
        (((List.range blk.length).filter fun j => patAt blk j t).head? = none)) →
      ts.foldl (tailStep blk) a = a := by
  intro ts
  induction ts with
  | nil => intro a _; rfl
  | cons t rest ih =>
      intro a h
      rw [List.foldl_cons]
      have hft := h t (List.mem_cons_self t rest)
      have hstep : tailStep blk a t = a := by simp [tailStep, hft]
      rw [hstep]
      exact ih a fun t' ht' => h t' (List.mem_cons_of_mem t ht')

theorem foldl_max_nat_last (l : List Nat) (p : Nat) (hmem : p ∈ l)
    (hmax : ∀ j ∈ l, j ≤ p) :
    l.foldl (fun (a : Int) (i : Nat) => max a (i : Int)) (-1) = (p : ℤ) := by
  have heq : l.foldl (fun (a : Int) (i : Nat) => max a (i : Int)) (-1)
      = (l.map fun k : Nat => (k : ℤ)).foldl max (-1) := by
    rw [List.foldl_map]
  rw [heq]
  have hub := foldl_max_ub (l.map fun k : Nat => (k : ℤ)) (-1)
  have hmm := foldl_max_mem (l.map fun k : Nat => (k : ℤ)) (-1)
  have hple : (p : ℤ) ≤ (l.map fun k : Nat => (k : ℤ)).foldl max (-1) :=
    hub.2 _ (List.mem_map.mpr ⟨p, hmem, rfl⟩)
  rcases List.mem_cons.mp hmm with h | h
  · exfalso; rw [h] at hple; omega
  · obtain ⟨j, hj, hje⟩ := List.mem_map.mp h
    have hjp : j ≤ p := hmax j hj
    rw [← hje] at hple ⊢
    have : (j : ℤ) ≤ (p : ℤ) := by exact_mod_cast hjp
    omega

/-- C6: for every text — (i) if no heading token occurs anywhere, the
Locator returns the last 30000 characters with `located = false`;
(ii) if a heading occurs, with `p` its last occurrence, the Locator
returns `located = true` together with the suffix starting at `p`,
truncated at the first subsequent tail-marker occurrence `q` if one
exists, and running to the end of the text otherwise. -/
theorem claim_C6_locator (text : String) :
    ((∀ i, i < text.data.length → heading_at text.data i = false) →
      find_references_block text =
        (String.mk (text.data.drop (text.data.length - 30000)), false)) ∧
    (∀ p, p < text.data.length → heading_at text.data p = true →
      (∀ j, j < text.data.length → heading_at text.data j = true → j ≤ p) →
      (find_references_block text).2 = true ∧
      ((∀ i, i < (text.data.drop p).length →
          tail_at (text.data.drop p) i = false) →
        (find_references_block text).1 = String.mk (text.data.drop p)) ∧
      (∀ q, q < (text.data.drop p).length →
        tail_at (text.data.drop p) q = true →
        (∀ j, j < q → tail_at (text.data.drop p) j = false) →
        (find_references_block text).1 =
          String.mk ((text.data.drop p).take q))) := by
  constructor
  · intro hno
    have he : (headingsPats.flatMap fun h =>
        (List.range text.data.length).filter fun i => patAt text.data i h) = [] := by
      rw [List.eq_nil_iff_forall_not_mem]
      intro i hi
      rw [mem_heading_occ] at hi
      rw [hno i hi.1] at hi
      exact absurd hi.2 (by simp)
    simp only [find_references_block]
    rw [he, List.foldl_nil, if_neg (by norm_num)]
  · intro p hp hh hmax
    have hfold : (headingsPats.flatMap fun h =>
          (List.range text.data.length).filter fun i => patAt text.data i h).foldl
        (fun (a : Int) (i : Nat) => max a (i : Int)) (-1) = (p : ℤ) := by
      apply foldl_max_nat_last
      · exact (mem_heading_occ text.data p).mpr ⟨hp, hh⟩
      · intro j hj
        rw [mem_heading_occ] at hj
        exact hmax j hj.1 hj.2
    have hres : find_references_block text =
        (String.mk ((text.data.drop p).take
          (tailsPats.foldl (tailStep (text.data.drop p))
            (text.data.drop p).length)), true) := by
      simp only [find_references_block]
      rw [hfold, if_pos (Int.natCast_nonneg p), Int.toNat_natCast]
    refine ⟨by rw [hres], ?_, ?_⟩
    · intro hnone
      have hT : tailsPats.foldl (tailStep (text.data.drop p))
          (text.data.drop p).length = (text.data.drop p).length := by
        apply foldl_tailStep_none
        intro t ht
        rw [(head_filter_range (fun i => patAt (text.data.drop p) i t)
          (text.data.drop p).length).1]
        intro i hi
        have h0 := hnone i hi
        rw [tail_at] at h0
        exact Bool.eq_false_iff.mpr (List.any_eq_false.mp h0 t ht)
      rw [hres, hT, List.take_length]
    · intro q hq hqt hqmin
      obtain ⟨t0, ht0, hpt0⟩ := List.any_eq_true.mp hqt
      have hsome : (((List.range (text.data.drop p).length).filter
          fun i => patAt (text.data.drop p) i t0).head?) = some q := by
        rcases hh0 : (((List.range (text.data.drop p).length).filter
            fun i => patAt (text.data.drop p) i t0).head?) with _ | j
        · exfalso
          have hcontra := (head_filter_range (fun i => patAt (text.data.drop p) i t0)
            (text.data.drop p).length).1.mp hh0 q hq
          rw [hpt0] at hcontra
          cases hcontra
        · obtain ⟨hj1, hj2, hj3⟩ := (head_filter_range
            (fun i => patAt (text.data.drop p) i t0)
            (text.data.drop p).length).2 j hh0
          have hjq : j ≤ q := by
            by_contra hlt
            push_neg at hlt
            have hcontra := hj3 q hlt
            rw [hpt0] at hcontra
            cases hcontra
          have htj : tail_at (text.data.drop p) j = true :=
            List.any_eq_true.mpr ⟨t0, ht0, hj2⟩
          have hnlt : ¬ j < q := by
            intro hjlt
            have hcontra := hqmin j hjlt
            rw [htj] at hcontra
            cases hcontra
          have hjq' : j = q := by omega
          exact congrArg some hjq'
      have hle := (foldl_tailStep_le (text.data.drop p) tailsPats
        (text.data.drop p).length).2 t0 ht0 q hsome
      have hT : tailsPats.foldl (tailStep (text.data.drop p))
          (text.data.drop p).length = q := by
        rcases foldl_tailStep_mem (text.data.drop p) tailsPats
            (text.data.drop p).length with hTa | ⟨t1, ht1, hsome1⟩
        · omega
        · obtain ⟨hj1, hj2, hj3⟩ := (head_filter_range
            (fun i => patAt (text.data.drop p) i t1)
            (text.data.drop p).length).2 _ hsome1
          have htT : tail_at (text.data.drop p)
              (tailsPats.foldl (tailStep (text.data.drop p))
                (text.data.drop p).length) = true :=
            List.any_eq_true.mpr ⟨t1, ht1, hj2⟩
          have hnlt : ¬ tailsPats.foldl (tailStep (text.data.drop p))
              (text.data.drop p).length < q := by
            intro hlt
            have hcontra := hqmin _ hlt
            rw [htT] at hcontra
            cases hcontra
          omega
      rw [hres, hT]

set_option maxRecDepth 20000 in
/-- C6 (witness): a heading-free text falls back to the 30000-character
suffix with `located = false`; the §8 scenario text is located at the
`References` heading (position 0, its last heading occurrence) and
truncated at the `Appendix` tail marker (position 90). -/
theorem claim_C6_witness :
    find_references_block "plain text" =
      (String.mk ("plain text".data.drop ("plain text".data.length - 30000)),
        false) ∧
    (find_references_block scenarioText).2 = true ∧
    (find_references_block scenarioText).1 =
      String.mk ((scenarioText.data.drop 0).take 90) := by
  refine ⟨?_, ?_⟩
  · exact (claim_C6_locator "plain text").1 (by decide)
  · obtain ⟨h1, -, h3⟩ := (claim_C6_locator scenarioText).2 0 (by decide)
      (by decide) (by decide)
    exact ⟨h1, h3 90 (by decide) (by decide) (by decide)⟩

end STISurvey
